import Mathlib

/-!
# Verification of the `sql_learn` in-memory SQL teaching engine

Shallow embedding of the repository's core engine
(`app/engine/btree.py`, `app/engine/query_parser.py`,
`app/engine/query_executor.py`, `app/engine/explain.py`) together with
theorems settling the specification claims.

Modelling conventions:
* Python `int` is `Int`; Python `float` is modelled as `Rat` (exact for
  every literal appearing in the claims); Python `str` is `String`;
  Python `None` is the `Value.vnull` variant (or `Option.none` where a
  variable ranges over "value or absent").
* A Python `dict` used as a row is an association list `List (String × Value)`
  preserving insertion order; `dictSet` reproduces Python's
  update-in-place-or-append semantics.
* Python `while` loops that are bounded by an explicit counter are
  translated with the remaining budget as a decreasing argument; the two
  recursions of the B-tree (`_insert_non_full`, `search`) descend one tree
  level per call, and are translated with an explicit fuel argument
  returning `none` on exhaustion (unreachable for fuel larger than the
  tree height, so any `some` result is the Python result).
-/

namespace SqlLearn

/-- Tagged scalar values stored in rows and conditions.  Mirrors the
dynamic values the Python engine passes around (int, float, str, None). -/
inductive Value where
  | vint (n : Int)
  | vfloat (q : Rat)
  | vstr (s : String)
  | vnull
deriving DecidableEq, Repr

/-- A row: Python dict from column name to value, in insertion order. -/
abbrev Row := List (String × Value)

/-- Python `d.get(k)`: first binding of `k`, or absent. -/
def dictGet? (r : Row) (k : String) : Option Value :=
  match r with
  | [] => none
  | (k', v) :: rest => if k' = k then some v else dictGet? rest k

/-- Python `d.get(k)` with default `None` (the most common call shape,
`row.get(col)`): a missing key behaves like a `NULL` value. -/
def rowGet (r : Row) (k : String) : Value :=
  (dictGet? r k).getD Value.vnull

/-- Python `k in d`. -/
def dictHas (r : Row) (k : String) : Bool :=
  match r with
  | [] => false
  | (k', _) :: rest => k' = k || dictHas rest k

/-- Python `d[k] = v`: overwrite in place if the key exists (keeping its
position), otherwise append at the end. -/
def dictSet (r : Row) (k : String) (v : Value) : Row :=
  match r with
  | [] => [(k, v)]
  | (k', v') :: rest =>
      if k' = k then (k', v) :: rest else (k', v') :: dictSet rest k v

/-- Python `d.update(e)` (applied binding by binding, left to right). -/
def dictUpdate (r : Row) (e : Row) : Row :=
  match e with
  | [] => r
  | (k, v) :: rest => dictUpdate (dictSet r k v) rest

/-! ## B-tree simulator (`app/engine/btree.py`)

`BTreeNode` carries parallel `keys`/`values` arrays (values used in leaf
nodes) and child pointers.  Keys and values are integers here (the claims
exercise integer keys; the Python code is generic).  `values` entries are
`Option Int` because the Python code appends a literal `None` to
`node.values` during `_insert_non_full` and (after the buggy
`_split_child` slicing) such an entry can survive in the list. -/

/-- `BTreeNode` (btree.py lines 10-27): key array, parallel value array,
children, leaf flag, stable numeric id. -/
inductive BNode where
  | mk (keys : List Int) (vals : List (Option Int)) (children : List BNode)
       (isLeaf : Bool) (nid : Nat)

def BNode.keys : BNode → List Int
  | .mk k _ _ _ _ => k

def BNode.vals : BNode → List (Option Int)
  | .mk _ v _ _ _ => v

def BNode.children : BNode → List BNode
  | .mk _ _ c _ _ => c

def BNode.isLeaf : BNode → Bool
  | .mk _ _ _ l _ => l

def BNode.nid : BNode → Nat
  | .mk _ _ _ _ i => i

/-- Rebuild a node from fields (used to mirror field assignment). -/
def BNode.make (keys : List Int) (vals : List (Option Int))
    (children : List BNode) (isLeaf : Bool) (nid : Nat) : BNode :=
  .mk keys vals children isLeaf nid

/-- The fresh node `BTreeNode()` that `_new_node` creates before its
fields are assigned: empty keys/values/children. -/
def BNode.fresh (isLeaf : Bool) (nid : Nat) : BNode :=
  .mk [] [] [] isLeaf nid

/-- The `BTree` object state: root, the `_node_counter`, and the order.
`_all_nodes` is not modelled (it is only read by the visualisation
accessors); the invariant claims quantify over the nodes reachable from
the root. -/
structure BTreeState where
  order : Nat
  root : BNode
  counter : Nat

/-- `BTree.__init__` (btree.py lines 42-46). -/
def BTree.new (order : Nat) : BTreeState :=
  { order := order, root := BNode.fresh true 0, counter := 1 }

/-- One step of the leaf-insertion shift loop of `_insert_non_full`
(btree.py lines 73-82).  `j` stands for the Python index `i + 1`, so the
loop `while i >= 0 and key < keys[i]` becomes recursion on `j`.  At each
step the Python code executes `keys[i+1] = keys[i]; values[i+1] = values[i]`
and on exit writes `keys[i+1] = key; values[i+1] = value`. -/
def leafInsertAux (key : Int) (val : Option Int) :
    Nat → List Int → List (Option Int) → List Int × List (Option Int)
  | 0, keys, vals => (keys.set 0 key, vals.set 0 val)
  | j + 1, keys, vals =>
      if key < keys.getD j 0 then
        leafInsertAux key val j (keys.set (j + 1) (keys.getD j 0))
          (vals.set (j + 1) (vals.getD j none))
      else
        (keys.set (j + 1) key, vals.set (j + 1) val)

/-- Leaf branch of `_insert_non_full` (btree.py lines 73-82): the code
first appends a placeholder `None` to both arrays (the placeholder
appended to `keys` is always overwritten, so an arbitrary `0` stands for
it; the one appended to `values` can survive when the arrays have
different lengths, hence `Option Int`). -/
def leafInsert (keys : List Int) (vals : List (Option Int)) (key : Int)
    (value : Int) : List Int × List (Option Int) :=
  leafInsertAux key (some value) keys.length (keys ++ [0]) (vals ++ [none])

/-- The index-search loop of the internal branch of `_insert_non_full`
(btree.py lines 85-87): `i = len(keys)-1; while i >= 0 and key < keys[i]:
i -= 1; i += 1`.  `j` again stands for `i + 1`. -/
def descendIndexAux (keys : List Int) (key : Int) : Nat → Nat
  | 0 => 0
  | j + 1 => if key < keys.getD j 0 then descendIndexAux keys key j else j + 1

def descendIndex (keys : List Int) (key : Int) : Nat :=
  descendIndexAux keys key keys.length

/-- `BTree._split_child` (btree.py lines 96-116), functionally: returns
the updated parent and node counter.  Note the source trims the leaf's
keys to `keys[:mid]` but its values to `values[:mid + 1]`, and promotes
`keys[mid]` to the parent. -/
def splitChild (order : Nat) (counter : Nat) (parent : BNode) (index : Nat) :
    BNode × Nat :=
  let full := parent.children.getD index (BNode.fresh true 0)
  let mid := (order - 1) / 2
  -- new_node = self._new_node(is_leaf=full_node.is_leaf)
  let newNode0 := BNode.fresh full.isLeaf counter
  -- new_node.keys = full_node.keys[mid + 1:]
  let newKeys := full.keys.drop (mid + 1)
  let (newNode, fullTrimmed) :=
    if full.isLeaf then
      (BNode.make newKeys (full.vals.drop (mid + 1)) newNode0.children
         full.isLeaf newNode0.nid,
       BNode.make (full.keys.take mid) (full.vals.take (mid + 1))
         full.children full.isLeaf full.nid)
    else
      (BNode.make newKeys newNode0.vals (full.children.drop (mid + 1))
         full.isLeaf newNode0.nid,
       BNode.make (full.keys.take mid) full.vals (full.children.take (mid + 1))
         full.isLeaf full.nid)
  let parentKeys := parent.keys.insertIdx index (full.keys.getD mid 0)
  let parentChildren :=
    (parent.children.set index fullTrimmed).insertIdx (index + 1) newNode
  (BNode.make parentKeys parent.vals parentChildren parent.isLeaf parent.nid,
   counter + 1)

/-- `BTree._insert_non_full` (btree.py lines 69-94), with fuel for the
descent (one unit per tree level; `none` only on fuel exhaustion). -/
def insertNonFull (order : Nat) :
    Nat → Nat → BNode → Int → Int → Option (BNode × Nat)
  | 0, _, _, _, _ => none
  | fuel + 1, counter, node, key, value =>
      if node.isLeaf then
        let (keys', vals') := leafInsert node.keys node.vals key value
        some (BNode.make keys' vals' node.children node.isLeaf node.nid,
              counter)
      else
        let i := descendIndex node.keys key
        let (node1, counter1, i1) :=
          if (node.children.getD i (BNode.fresh true 0)).keys.length
              = order - 1 then
            let (p, c) := splitChild order counter node i
            (p, c, if key > p.keys.getD i 0 then i + 1 else i)
          else (node, counter, i)
        match insertNonFull order fuel counter1
            (node1.children.getD i1 (BNode.fresh true 0)) key value with
        | none => none
        | some (child', counter2) =>
            some (BNode.make node1.keys node1.vals
                    (node1.children.set i1 child') node1.isLeaf node1.nid,
                  counter2)

/-- `BTree.insert` (btree.py lines 55-67): split a full root upward, then
insert top-down. -/
def BTree.insert (fuel : Nat) (t : BTreeState) (key value : Int) :
    Option BTreeState :=
  let (start, counter0) :=
    if t.root.keys.length = t.order - 1 then
      let newRoot0 :=
        BNode.make [] [] [t.root] false t.counter
      let (newRoot, c) := splitChild t.order (t.counter + 1) newRoot0 0
      (newRoot, c)
    else (t.root, t.counter)
  match insertNonFull t.order fuel counter0 start key value with
  | none => none
  | some (root', counter') =>
      some { order := t.order, root := root', counter := counter' }

/-- Insert a list of (key, value) pairs in order (sequence of
`tree.insert(key, value)` calls). -/
def BTree.insertAll (fuel : Nat) (t : BTreeState) :
    List (Int × Int) → Option BTreeState
  | [] => some t
  | (k, v) :: rest =>
      match BTree.insert fuel t k v with
      | none => none
      | some t' => BTree.insertAll fuel t' rest

/-- `TraversalStep` (btree.py lines 30-36). -/
structure TStep where
  nodeId : Nat
  keysChecked : List Int
  comparison : String
  action : String
deriving DecidableEq, Repr

/-- The comparison-collecting scan at the head of each `search` loop
iteration (btree.py lines 138-143): advance `i` while `key > keys[i]`,
collecting the texts `"{key} > {keys[i]}"`. -/
def searchScanGo (key : Int) (i : Nat) (acc : List String) :
    List Int → Nat × List String
  | [] => (i, acc.reverse)
  | k :: tl =>
      if key > k then searchScanGo key (i + 1) (s!"{key} > {k}" :: acc) tl
      else (i, acc.reverse)

def searchScan (key : Int) (keys : List Int) : Nat × List String :=
  searchScanGo key 0 [] keys

/-- Python `", ".join`. -/
def joinComma (l : List String) : String :=
  match l with
  | [] => ""
  | [s] => s
  | s :: rest => s ++ ", " ++ joinComma rest

/-- `BTree.search` (btree.py lines 118-163) with descent fuel.  Returns
the Python pair `(value-or-None, steps)`; note the source returns the
*key itself* when the match is found in a non-leaf node (line 151). -/
def BTree.search (fuel : Nat) (node : BNode) (key : Int)
    (steps : List TStep) : Option (Option Int × List TStep) :=
  match fuel with
  | 0 => none
  | fuel + 1 =>
      let (i, comparisons) := searchScan key node.keys
      if i < node.keys.length ∧ key = node.keys.getD i 0 then
        let ki := node.keys.getD i 0
        let comparisons := comparisons ++ [s!"{key} = {ki}"]
        let step : TStep :=
          { nodeId := node.nid, keysChecked := node.keys,
            comparison :=
              if comparisons.isEmpty then s!"Found {key}"
              else joinComma comparisons,
            action := "found" }
        if node.isLeaf then
          some (node.vals.getD i none, steps ++ [step])
        else
          some (some key, steps ++ [step])
      else
        let headText :=
          if node.keys.isEmpty then "empty" else toString (node.keys.getD 0 0)
        let cmpText :=
          if comparisons.isEmpty then s!"{key} < {headText}"
          else joinComma comparisons
        if node.isLeaf then
          let step : TStep :=
            { nodeId := node.nid, keysChecked := node.keys,
              comparison := cmpText, action := "not_found" }
          some (none, steps ++ [step])
        else
          let step : TStep :=
            { nodeId := node.nid, keysChecked := node.keys,
              comparison := cmpText ++ s!" -> descend to child {i}",
              action := "descend" }
          BTree.search fuel (node.children.getD i (BNode.fresh true 0)) key
            (steps ++ [step])

/-- All nodes reachable from a node (the tree the object owns), with
fuel (tree height bound). -/
def collectNodes : Nat → BNode → List BNode
  | 0, _ => []
  | fuel + 1, n => n :: (n.children.map (collectNodes fuel)).flatten

/-! ## String machinery for the parser (`app/engine/query_parser.py`)

The Python parser drives everything through `re`.  The regular
expressions it uses are small and concrete, so each one is translated
into a hand-written scanner over `List Char` implementing the same
matching discipline (leftmost match, ordered alternation, greedy
one-run quantifiers whose following context cannot extend a run, lazy
`(.*?)` groups realised as "shortest stop position").  Inputs are ASCII
SQL text; `\w` is `[A-Za-z0-9_]` and `\s` is ASCII whitespace there. -/

/-- Python `\w` on ASCII input. -/
def isWordCh (c : Char) : Bool :=
  ('a' ≤ c && c ≤ 'z') || ('A' ≤ c && c ≤ 'Z') || ('0' ≤ c && c ≤ '9') || c = '_'

/-- Python `\s` on ASCII input (also what `str.strip()` removes). -/
def isSpaceCh (c : Char) : Bool :=
  c = ' ' || c = '\t' || c = '\n' || c = '\r' || c = '\x0b' || c = '\x0c'

def isDigitCh (c : Char) : Bool := '0' ≤ c && c ≤ '9'

/-- ASCII upper-casing, as `str.upper()` acts on the engine's input. -/
def upCh (c : Char) : Char :=
  if 'a' ≤ c ∧ c ≤ 'z' then Char.ofNat (c.toNat - 32) else c

/-- ASCII lower-casing (`str.lower()`). -/
def lowCh (c : Char) : Char :=
  if 'A' ≤ c ∧ c ≤ 'Z' then Char.ofNat (c.toNat + 32) else c

abbrev Chars := List Char

def upStr (s : Chars) : Chars := s.map upCh
def lowStr (s : Chars) : Chars := s.map lowCh

/-- Python `str.strip()`. -/
def strStrip (s : Chars) : Chars :=
  ((s.dropWhile isSpaceCh).reverse.dropWhile isSpaceCh).reverse

/-- Python `str.strip(chars)` for a given removal set. -/
def strStripSet (bad : Chars) (s : Chars) : Chars :=
  ((s.dropWhile (bad.contains ·)).reverse.dropWhile (bad.contains ·)).reverse

def isPrefixList : Chars → Chars → Bool
  | [], _ => true
  | _ :: _, [] => false
  | p :: ps, c :: cs => p = c && isPrefixList ps cs

/-- Case-insensitive literal at the head; returns the rest on success. -/
def matchKw (kw : Chars) (s : Chars) : Option Chars :=
  if isPrefixList kw (upStr (s.take kw.length)) then some (s.drop kw.length)
  else none

/-- Python `sub in s` (case-sensitive containment). -/
def containsSub (sub : Chars) : Chars → Bool
  | [] => isPrefixList sub []
  | c :: tl => isPrefixList sub (c :: tl) || containsSub sub tl

/-- Python `s.find(sub)` restricted to the found case. -/
def findSubIdx? (sub : Chars) : Chars → Option Nat
  | [] => if isPrefixList sub [] then some 0 else none
  | c :: tl =>
      if isPrefixList sub (c :: tl) then some 0
      else (findSubIdx? sub tl).map (· + 1)

/-- Maximal `\w+` run (and the remainder). -/
def wordRun (s : Chars) : Chars × Chars :=
  (s.takeWhile isWordCh, s.dropWhile isWordCh)

/-- Maximal `\s*` run, returning the remainder. -/
def skipSpaces (s : Chars) : Chars := s.dropWhile isSpaceCh

/-- Maximal `\d+` run (and the remainder). -/
def digitRun (s : Chars) : Chars × Chars :=
  (s.takeWhile isDigitCh, s.dropWhile isDigitCh)

/-- `int()` on a digit string: the genuinely partial Python operation in
the parser (`int(match.group(1))` in `_extract_limit`); `none` on a
non-digit or empty input, where Python would raise `ValueError`. -/
def digitsToNat? (s : Chars) : Option Nat :=
  if s.isEmpty then none
  else if s.all isDigitCh then
    some (s.foldl (fun acc c => acc * 10 + (c.toNat - 48)) 0)
  else none

/-- Word boundary `\b` before a word character, given the previous char. -/
def atBoundary (prev : Option Char) : Bool :=
  match prev with
  | none => true
  | some p => !(isWordCh p)

/-- Python `", ".join` equivalents for list-of-chars pieces. -/
def splitOnCh (sep : Char) (s : Chars) : List Chars :=
  match s with
  | [] => [[]]
  | c :: tl =>
      let rest := splitOnCh sep tl
      if c = sep then [] :: rest
      else
        match rest with
        | [] => [[c]]
        | r :: rs => (c :: r) :: rs

-- Python `str.split(',')` never returns an empty list; `splitOnCh`
-- already matches that behaviour (`"".split(',') == ['']`).

/-! ## Parsed-query data model (`query_parser.py` lines 12-39) -/

/-- The `value` slot of a condition dict: a scalar, a list (for `IN`),
or Python `None` (for `IS [NOT] NULL`). -/
inductive CondVal where
  | scalar (v : Value)
  | listv (vs : List Value)
  | nonev
deriving DecidableEq, Repr

/-- One WHERE condition dict `{'column':…, 'op':…, 'value':…}`. -/
structure Cond where
  column : String
  op : String
  value : CondVal
deriving DecidableEq, Repr

/-- One HAVING condition dict `{'expression':…, 'op':…, 'value':…}`. -/
structure HCond where
  expression : String
  op : String
  value : Value
deriving DecidableEq, Repr

/-- One JOIN dict `{'type':…, 'table':…, 'alias':…, 'on':…}`. -/
structure JoinD where
  type : String
  table : String
  aliasName : Option String
  onClause : Option String
deriving DecidableEq, Repr

/-- `CTEDefinition` (query_parser.py lines 12-18). -/
structure CTEDef where
  name : String
  query : String
  isRecursive : Bool
  columns : List String
deriving DecidableEq, Repr

/-- `ParsedQuery` (query_parser.py lines 21-39). -/
structure ParsedQuery where
  queryType : String
  tables : List String
  columns : List String
  whereConditions : List Cond
  groupBy : List String
  havingConditions : List HCond
  orderBy : List (String × String)
  limit : Option Nat
  joins : List JoinD
  rawQuery : String
  ctes : List CTEDef
  mainQuery : String
  isRecursive : Bool
  tableAliases : List (String × String)
deriving DecidableEq, Repr

/-- Python `int(s)`: optional sign then digits (`ValueError` = `none`). -/
def parseIntPy? (s : Chars) : Option Int :=
  match s with
  | '-' :: rest => (digitsToNat? rest).map (fun n => -(n : Int))
  | '+' :: rest => (digitsToNat? rest).map Int.ofNat
  | _ => (digitsToNat? s).map Int.ofNat

/-- Python `float(s)` for the decimal forms `[sign]digits.digits`,
`[sign]digits.`, `[sign].digits` (the only float literals the engine's
regexes can deliver; scientific notation is out of the modelled
subset and is reported as `none`). -/
def parseFloatPy? (s : Chars) : Option Rat :=
  let core (t : Chars) : Option Rat :=
    let intPart := t.takeWhile isDigitCh
    let rest := t.dropWhile isDigitCh
    match rest with
    | '.' :: frac =>
        if frac.all isDigitCh ∧ ¬(intPart.isEmpty ∧ frac.isEmpty) then
          let ip : Nat := (intPart.foldl (fun a c => a * 10 + (c.toNat - 48)) 0)
          let fp : Nat := (frac.foldl (fun a c => a * 10 + (c.toNat - 48)) 0)
          some ((ip : Rat) + (fp : Rat) / ((10 : Rat) ^ frac.length))
        else none
    | _ => none
  match s with
  | '-' :: rest => (core rest).map (fun q => -q)
  | '+' :: rest => core rest
  | _ => core s

/-- `_parse_value` (query_parser.py lines 398-407): strip, then `float`
if the text contains a dot else `int`, falling back to the raw string
on `ValueError`. -/
def parseValue (s : Chars) : Value :=
  let v := strStrip s
  if v.contains '.' then
    match parseFloatPy? v with
    | some q => .vfloat q
    | none => .vstr (String.mk v)
  else
    match parseIntPy? v with
    | some n => .vint n
    | none => .vstr (String.mk v)

/-! ## Regex scanners -/

/-- First match of `\bKW\s+(\w+)` (case-insensitive search): returns
the captured word and the remainder after it. -/
def scanKwWord (kw : Chars) (prev : Option Char) : Chars → Option (Chars × Chars)
  | [] => none
  | c :: tl =>
      let tryHere : Option (Chars × Chars) :=
        if atBoundary prev then
          match matchKw kw (c :: tl) with
          | some rest =>
              match rest with
              | r :: _ =>
                  if isSpaceCh r then
                    let (w, rem) := wordRun (skipSpaces rest)
                    if w.isEmpty then none else some (w, rem)
                  else none
              | [] => none
          | none => none
        else none
      match tryHere with
      | some res => some res
      | none => scanKwWord kw (some c) tl

/-- `re.finditer` over `\bKW\s+(\w+)`: all (non-overlapping) captured
words, scanning resuming right after each captured word. -/
def scanKwWordAll (kw : Chars) : Nat → Option Char → Chars → List Chars
  | 0, _, _ => []
  | fuel + 1, prev, s =>
      match scanKwWord kw prev s with
      | none => []
      | some (w, rem) =>
          w :: scanKwWordAll kw fuel (some (w.getLastD 'a')) rem

/-- A stop of a lazy `(.*?)` group: either end of input (`$`) or a
word-boundary-anchored keyword from `stops`. -/
def clauseStop (stops : List Chars) (prev : Option Char) (r : Chars) : Bool :=
  r.isEmpty || (atBoundary prev && stops.any (fun k => (matchKw k r).isSome))

/-- Least index at which a `clauseStop` begins (threading the previous
character for the `\b` checks). -/
def findStopFrom (stops : List Chars) (prev : Option Char) : Chars → Option Nat
  | [] => if clauseStop stops prev [] then some 0 else none
  | c :: tl =>
      if clauseStop stops prev (c :: tl) then some 0
      else (findStopFrom stops (some c) tl).map (· + 1)

/-- First match of `\bKW\s+(.*?)(?:\bSTOP₁|…|\bSTOPₙ|$)` (IGNORECASE,
DOTALL): the clause-extraction shape used for WHERE / GROUP BY / HAVING
/ ORDER BY.  The lazy group is the text from after the whitespace up
to the earliest stop keyword (or the end). -/
def scanClause (kw : Chars) (stops : List Chars) (prev : Option Char) :
    Chars → Option Chars
  | [] => none
  | c :: tl =>
      let tryHere : Option Chars :=
        if atBoundary prev then
          match matchKw kw (c :: tl) with
          | some rest =>
              match rest with
              | r :: _ =>
                  if isSpaceCh r then
                    let region := skipSpaces rest
                    match findStopFrom stops (some ' ') region with
                    | some e => some (region.take e)
                    | none => none
                  else none
              | [] => none
          | none => none
        else none
      match tryHere with
      | some res => some res
      | none => scanClause kw stops (some c) tl

/-- Stop test for `\s+FROM`-style stops (`_extract_columns` patterns):
the remainder must begin with at least one whitespace character whose
maximal run is immediately followed by one of the keywords. -/
def spacedStop (stops : List Chars) (r : Chars) : Bool :=
  match r with
  | [] => false
  | c :: _ =>
      isSpaceCh c && stops.any (fun k => (matchKw k (skipSpaces r)).isSome)

/-- Stop test additionally allowing the `\s*$` alternative. -/
def spacedStopOrEnd (stops : List Chars) (r : Chars) : Bool :=
  spacedStop stops r || r.all isSpaceCh

def findIdxWhere (p : Chars → Bool) : Chars → Option Nat
  | [] => if p [] then some 0 else none
  | c :: tl => if p (c :: tl) then some 0 else (findIdxWhere p tl).map (· + 1)

/-- First match of `\bSELECT\s+(.*?)\s+STOP…` / `…(?:\s+STOP…|\s*$)`:
the lazy group between the greedy run of whitespace after SELECT and
the earliest whitespace-preceded stop keyword.  When no such stop
exists but a stop keyword sits directly after the leading whitespace
run, the regex engine backtracks one space out of the greedy `\s+`
(possible only when the run has length ≥ 2) and the group is empty. -/
def scanSelectGroup (stops : List Chars) (withEndStop : Bool)
    (prev : Option Char) : Chars → Option Chars
  | [] => none
  | c :: tl =>
      let tryHere : Option Chars :=
        if atBoundary prev then
          match matchKw "SELECT".data (c :: tl) with
          | some rest =>
              match rest with
              | r :: _ =>
                  if isSpaceCh r then
                    let region := skipSpaces rest
                    let spaceLen := rest.length - region.length
                    let stopTest :=
                      if withEndStop then spacedStopOrEnd stops
                      else spacedStop stops
                    match findIdxWhere stopTest region with
                    | some e => some (region.take e)
                    | none =>
                        if spaceLen ≥ 2 ∧
                            stops.any (fun k => (matchKw k region).isSome) then
                          some []
                        else none
                  else none
              | [] => none
          | none => none
        else none
      match tryHere with
      | some res => some res
      | none => scanSelectGroup stops withEndStop (some c) tl

/-! ## Clause extractors (`query_parser.py` lines 185-407) -/

/-- `_extract_tables` (lines 185-199): first `\bFROM\s+(\w+)` match plus
every `\bJOIN\s+(\w+)` match, lower-cased. -/
def extractTables (sql : Chars) : List String :=
  let fromT :=
    match scanKwWord "FROM".data none sql with
    | some (w, _) => [String.mk (lowStr w)]
    | none => []
  fromT ++ (scanKwWordAll "JOIN".data (sql.length + 1) none sql).map
    (fun w => String.mk (lowStr w))

/-- The depth-tracked comma split of the SELECT list
(`_extract_columns` lines 240-255): commas inside parentheses do not
split; every comma at depth 0 appends the stripped current piece (even
when empty); a non-empty final piece is appended at the end. -/
def commaSplitColsGo (depth : Int) (current : Chars) (acc : List String) :
    Chars → List String
  | [] =>
      if (strStrip current.reverse).isEmpty then acc.reverse
      else acc.reverse ++ [String.mk (strStrip current.reverse)]
  | c :: tl =>
      if c = '(' then commaSplitColsGo (depth + 1) (c :: current) acc tl
      else if c = ')' then commaSplitColsGo (depth - 1) (c :: current) acc tl
      else if c = ',' ∧ depth = 0 then
        commaSplitColsGo depth [] (String.mk (strStrip current.reverse) :: acc) tl
      else commaSplitColsGo depth (c :: current) acc tl

/-- `_extract_columns` (lines 223-257): `\bSELECT\s+(.*?)\s+FROM`, with
the no-FROM fallback `\bSELECT\s+(.*?)(?:\s+WHERE|\s+ORDER|\s+LIMIT|\s+GROUP|\s*$)`;
`['*']` when neither matches or the list is exactly `*`. -/
def extractColumns (sql : Chars) : List String :=
  let grp :=
    match scanSelectGroup ["FROM".data] false none sql with
    | some g => some g
    | none =>
        scanSelectGroup
          ["WHERE".data, "ORDER".data, "LIMIT".data, "GROUP".data] true none sql
  match grp with
  | none => ["*"]
  | some g =>
      let colsStr := strStrip g
      if colsStr = ['*'] then ["*"]
      else commaSplitColsGo 0 [] [] colsStr

/-- Ordered operator alternation `>=|<=|<>|!=|>|<|=`. -/
def matchOp (s : Chars) : Option (Chars × Chars) :=
  let ops : List Chars :=
    [['>', '='], ['<', '='], ['<', '>'], ['!', '='], ['>'], ['<'], ['=']]
  (ops.find? (fun o => isPrefixList o s)).map (fun o => (o, s.drop o.length))

/-- Value alternative `\d+(?:\.\d+)?`. -/
def digitTok (s : Chars) : Option (Chars × Chars) :=
  let (d, rd) := digitRun s
  if d.isEmpty then none
  else
    match rd with
    | '.' :: rest =>
        let (d2, rd2) := digitRun rest
        if d2.isEmpty then some (d, rd) else some (d ++ '.' :: d2, rd2)
    | _ => some (d, rd)

/-- Value alternative `[\w\s]+` (maximal run). -/
def wordSpaceTok (s : Chars) : Option (Chars × Chars) :=
  let run := s.takeWhile (fun c => isWordCh c || isSpaceCh c)
  if run.isEmpty then none else some (run, s.drop run.length)

/-- One match of WHERE pattern 1
`(\w+)\s*(>=|<=|<>|!=|>|<|=)\s*([\'"]?)(\d+(?:\.\d+)?|[\w\s]+)\3`
starting at the head of `s` (query_parser.py line 274). -/
def matchCond1 (s : Chars) : Option (Cond × Chars) :=
  let (w, r1) := wordRun s
  if w.isEmpty then none
  else
    match matchOp (skipSpaces r1) with
    | none => none
    | some (op, r3) =>
        let mk (vtext : Chars) : Cond :=
          { column := String.mk (lowStr w), op := String.mk op,
            value := .scalar (parseValue vtext) }
        let r4 := skipSpaces r3
        match r4 with
        | q :: r5 =>
            if q = '\'' ∨ q = '"' then
              -- quoted: the backreference `\3` must close the value
              let close (t : Option (Chars × Chars)) : Option (Cond × Chars) :=
                match t with
                | some (v, q2 :: r7) => if q2 = q then some (mk v, r7) else none
                | _ => none
              match close (digitTok r5) with
              | some res => some res
              | none => close (wordSpaceTok r5)
            else
              match digitTok r4 with
              | some (v, r6) => some (mk v, r6)
              | none =>
                  match wordSpaceTok r4 with
                  | some (v, r6) => some (mk v, r6)
                  | none => none
        | [] => none

/-- One match of the LIKE pattern `(\w+)\s+LIKE\s+[\'"]([^"\']+)[\'"]`
(query_parser.py line 275). -/
def matchLikeCond (s : Chars) : Option (Cond × Chars) :=
  let (w, r1) := wordRun s
  if w.isEmpty then none
  else
    match r1 with
    | c1 :: _ =>
        if isSpaceCh c1 then
          match matchKw "LIKE".data (skipSpaces r1) with
          | some r2 =>
              match r2 with
              | c2 :: _ =>
                  if isSpaceCh c2 then
                    match skipSpaces r2 with
                    | q :: r3 =>
                        if q = '\'' ∨ q = '"' then
                          let content :=
                            r3.takeWhile (fun c => c ≠ '\'' ∧ c ≠ '"')
                          let rest := r3.drop content.length
                          match rest with
                          | q2 :: r4 =>
                              if content.isEmpty then none
                              else if q2 = '\'' ∨ q2 = '"' then
                                some ({ column := String.mk (lowStr w),
                                        op := "LIKE",
                                        value := .scalar (.vstr (String.mk content)) },
                                      r4)
                              else none
                          | [] => none
                        else none
                    | [] => none
                  else none
              | [] => none
          | none => none
        else none
    | [] => none

/-- One match of the IN pattern `(\w+)\s+IN\s*\(([^)]+)\)`
(query_parser.py line 276). -/
def matchInCond (s : Chars) : Option (Cond × Chars) :=
  let (w, r1) := wordRun s
  if w.isEmpty then none
  else
    match r1 with
    | c1 :: _ =>
        if isSpaceCh c1 then
          match matchKw "IN".data (skipSpaces r1) with
          | some r2 =>
              match skipSpaces r2 with
              | '(' :: r3 =>
                  let content := r3.takeWhile (· ≠ ')')
                  let rest := r3.drop content.length
                  match rest with
                  | ')' :: r4 =>
                      if content.isEmpty then none
                      else
                        let vals := (splitOnCh ',' content).map (fun v =>
                          parseValue (strStripSet ['\'', '"'] (strStrip v)))
                        some ({ column := String.mk (lowStr w), op := "IN",
                                value := .listv vals }, r4)
                  | _ => none
              | _ => none
          | none => none
        else none
    | [] => none

/-- One match of `(\w+)\s+IS\s+NULL` (query_parser.py line 277). -/
def matchIsNullCond (s : Chars) : Option (Cond × Chars) :=
  let (w, r1) := wordRun s
  if w.isEmpty then none
  else
    match r1 with
    | c1 :: _ =>
        if isSpaceCh c1 then
          match matchKw "IS".data (skipSpaces r1) with
          | some r2 =>
              match r2 with
              | c2 :: _ =>
                  if isSpaceCh c2 then
                    match matchKw "NULL".data (skipSpaces r2) with
                    | some r3 =>
                        some ({ column := String.mk (lowStr w), op := "IS NULL",
                                value := .nonev }, r3)
                    | none => none
                  else none
              | [] => none
          | none => none
        else none
    | [] => none

/-- One match of `(\w+)\s+IS\s+NOT\s+NULL` (query_parser.py line 278). -/
def matchIsNotNullCond (s : Chars) : Option (Cond × Chars) :=
  let (w, r1) := wordRun s
  if w.isEmpty then none
  else
    match r1 with
    | c1 :: _ =>
        if isSpaceCh c1 then
          match matchKw "IS".data (skipSpaces r1) with
          | some r2 =>
              match r2 with
              | c2 :: _ =>
                  if isSpaceCh c2 then
                    match matchKw "NOT".data (skipSpaces r2) with
                    | some r3 =>
                        match r3 with
                        | c3 :: _ =>
                            if isSpaceCh c3 then
                              match matchKw "NULL".data (skipSpaces r3) with
                              | some r4 =>
                                  some ({ column := String.mk (lowStr w),
                                          op := "IS NOT NULL",
                                          value := .nonev }, r4)
                              | none => none
                            else none
                        | [] => none
                    | none => none
                  else none
              | [] => none
          | none => none
        else none
    | [] => none

/-- `re.finditer` driver: repeatedly try `m` at each position, jumping
over each match (non-overlapping, leftmost-first). -/
def findAllMatches (m : Chars → Option (Cond × Chars)) :
    Nat → Chars → List Cond
  | 0, _ => []
  | _ + 1, [] => []
  | fuel + 1, c :: tl =>
      match m (c :: tl) with
      | some (cond, rest) => cond :: findAllMatches m fuel rest
      | none => findAllMatches m fuel tl

/-- `_extract_where` (query_parser.py lines 260-315): locate the WHERE
clause, then run the five condition patterns over it in order,
concatenating their matches. -/
def extractWhere (sql : Chars) : List Cond :=
  match scanClause "WHERE".data
      ["GROUP BY".data, "ORDER BY".data, "LIMIT".data, "HAVING".data]
      none sql with
  | none => []
  | some clause0 =>
      let clause := strStrip clause0
      let f := clause.length + 1
      findAllMatches matchCond1 f clause
        ++ findAllMatches matchLikeCond f clause
        ++ findAllMatches matchInCond f clause
        ++ findAllMatches matchIsNullCond f clause
        ++ findAllMatches matchIsNotNullCond f clause

/-- `_extract_group_by` (lines 318-326). -/
def extractGroupBy (sql : Chars) : List String :=
  match scanClause "GROUP BY".data
      ["HAVING".data, "ORDER BY".data, "LIMIT".data] none sql with
  | none => []
  | some cl =>
      (splitOnCh ',' (strStrip cl)).map
        (fun c => String.mk (lowStr (strStrip c)))

/-- One match of the HAVING pattern
`(\w+\([^)]*\)|\w+)\s*(>=|<=|<>|!=|>|<|=)\s*(\d+(?:\.\d+)?)`
(query_parser.py line 340). -/
def matchHavingCond (s : Chars) : Option (HCond × Chars) :=
  let (w, r1) := wordRun s
  if w.isEmpty then none
  else
    let exprAndRest : Option (Chars × Chars) :=
      match r1 with
      | '(' :: r2 =>
          let content := r2.takeWhile (· ≠ ')')
          let rest := r2.drop content.length
          match rest with
          | ')' :: r3 => some (w ++ '(' :: content ++ [')'], r3)
          | _ => some (w, r1)
      | _ => some (w, r1)
    match exprAndRest with
    | none => none
    | some (expr, r4) =>
        match matchOp (skipSpaces r4) with
        | none => none
        | some (op, r5) =>
            match digitTok (skipSpaces r5) with
            | some (v, r6) =>
                some ({ expression := String.mk expr, op := String.mk op,
                        value := parseValue v }, r6)
            | none => none

def findAllHaving (m : Chars → Option (HCond × Chars)) :
    Nat → Chars → List HCond
  | 0, _ => []
  | _ + 1, [] => []
  | fuel + 1, c :: tl =>
      match m (c :: tl) with
      | some (cond, rest) => cond :: findAllHaving m fuel rest
      | none => findAllHaving m fuel tl

/-- `_extract_having` (lines 329-348). -/
def extractHaving (sql : Chars) : List HCond :=
  match scanClause "HAVING".data ["ORDER BY".data, "LIMIT".data] none sql with
  | none => []
  | some cl =>
      let clause := strStrip cl
      findAllHaving matchHavingCond (clause.length + 1) clause

/-- `re.sub(r'\s+KW\s*$', '', part)` (case-insensitive), as used by
`_extract_order_by` to drop a trailing direction keyword. -/
def stripTailKw (kw : Chars) (part : Chars) : Chars :=
  let r := part.reverse
  let r1 := r.dropWhile isSpaceCh
  if upStr (r1.take kw.length) = (upStr kw).reverse then
    let r2 := r1.drop kw.length
    match r2 with
    | c :: _ =>
        if isSpaceCh c then (r2.dropWhile isSpaceCh).reverse else part
    | [] => part
  else part

/-- `_extract_order_by` (lines 351-370). -/
def extractOrderBy (sql : Chars) : List (String × String) :=
  match scanClause "ORDER BY".data ["LIMIT".data] none sql with
  | none => []
  | some cl =>
      (splitOnCh ',' (strStrip cl)).map (fun part0 =>
        let part := strStrip part0
        if containsSub " DESC".data (upStr part) then
          (String.mk (lowStr (strStrip (stripTailKw "DESC".data part))), "DESC")
        else
          (String.mk (lowStr (strStrip (stripTailKw "ASC".data part))), "ASC"))

/-- Scanner for `\bLIMIT\s+(\d+)` (first match): the digit group. -/
def scanLimitDigits (prev : Option Char) : Chars → Option Chars
  | [] => none
  | c :: tl =>
      let tryHere : Option Chars :=
        if atBoundary prev then
          match matchKw "LIMIT".data (c :: tl) with
          | some rest =>
              match rest with
              | r :: _ =>
                  if isSpaceCh r then
                    let (d, _) := digitRun (skipSpaces rest)
                    if d.isEmpty then none else some d
                  else none
              | [] => none
          | none => none
        else none
      match tryHere with
      | some res => some res
      | none => scanLimitDigits (some c) tl

/-- `_extract_limit` (lines 373-379).  The outer `Option` is the one
genuinely partial Python step, `int(match.group(1))`; the inner option
is absence of a LIMIT clause. -/
def extractLimit (sql : Chars) : Option (Option Nat) :=
  match scanLimitDigits none sql with
  | none => some none
  | some ds => (digitsToNat? ds).map some

/-- Full word boundary `\b` (either side may be the word character):
needed for `_extract_joins`, whose match may begin at a non-word
character preceding the JOIN keyword. -/
def isBoundaryX (prev : Option Char) (s : Chars) : Bool :=
  match prev, s with
  | none, [] => false
  | none, c :: _ => isWordCh c
  | some p, [] => isWordCh p
  | some p, c :: _ => isWordCh p != isWordCh c

def joinStops : List Chars :=
  ["JOIN".data, "WHERE".data, "GROUP".data, "ORDER".data, "LIMIT".data]

def mkJoinD (typeStr : String) (table : Chars) (aliasOpt : Option Chars)
    (onTxt : Option Chars) : JoinD :=
  { type := typeStr, table := String.mk (lowStr table),
    aliasName := aliasOpt.map (fun a => String.mk (lowStr a)),
    onClause := onTxt.map (fun o => String.mk (strStrip o)) }

/-- The `\s*(?:ON\s+(.+?))?(?=\bJOIN|\bWHERE|\bGROUP|\bORDER|\bLIMIT|$)`
tail of the `_extract_joins` pattern (query_parser.py line 386), from
the point right after the (optional) alias.  `lastCh` is the character
preceding `r` (for the lookahead's `\b`).  Returns the join dict, the
character preceding the continuation point, and the continuation. -/
def joinFinish (typeStr : String) (table : Chars) (aliasOpt : Option Chars)
    (lastCh : Char) (r : Chars) : Option (JoinD × Option Char × Chars) :=
  let r7 := skipSpaces r
  let last7 := if r7.length < r.length then ' ' else lastCh
  let onBranch : Option (JoinD × Option Char × Chars) :=
    match matchKw "ON".data r7 with
    | some rO =>
        match rO with
        | cO :: _ =>
            if isSpaceCh cO then
              match skipSpaces rO with
              | [] => none
              | c0 :: tl0 =>
                  match findStopFrom joinStops (some c0) tl0 with
                  | some e0 =>
                      let region := c0 :: tl0
                      let e := e0 + 1
                      some (mkJoinD typeStr table aliasOpt (some (region.take e)),
                            some (region.getD (e - 1) ' '), region.drop e)
                  | none => none
            else none
        | [] => none
    | none => none
  match onBranch with
  | some res => some res
  | none =>
      if clauseStop joinStops (some last7) r7 then
        some (mkJoinD typeStr table aliasOpt none, some last7, r7)
      else none

/-- The `(?:AS\s+)?(\w+)?` middle of the `_extract_joins` pattern,
starting right after the mandatory whitespace following the table name.
Greedy preference: with `AS` before without, with alias before without. -/
def joinMiddle (typeStr : String) (table : Chars) (r4 : Chars) :
    Option (JoinD × Option Char × Chars) :=
  let aliasStep (r : Chars) : Option (JoinD × Option Char × Chars) :=
    let (al, rAl) := wordRun r
    let withAlias :=
      if al.isEmpty then none
      else joinFinish typeStr table (some al) (al.getLastD 'a') rAl
    match withAlias with
    | some res => some res
    | none => joinFinish typeStr table none ' ' r
  let withAs : Option (JoinD × Option Char × Chars) :=
    match matchKw "AS".data r4 with
    | some rA =>
        match rA with
        | cA :: _ => if isSpaceCh cA then aliasStep (skipSpaces rA) else none
        | [] => none
    | none => none
  match withAs with
  | some res => some res
  | none => aliasStep r4

/-- One match of the `_extract_joins` pattern
`\b(LEFT|RIGHT|INNER|OUTER|CROSS)?\s*JOIN\s+(\w+)\s+(?:AS\s+)?(\w+)?\s*(?:ON\s+(.+?))?(?=…)`
at the head of `s` (`prev` = char before `s`). -/
def joinAfterType (typeStr : String) (restT : Chars) :
    Option (JoinD × Option Char × Chars) :=
  match matchKw "JOIN".data (skipSpaces restT) with
  | none => none
  | some r1 =>
      match r1 with
      | c1 :: _ =>
          if isSpaceCh c1 then
            let (table, r3) := wordRun (skipSpaces r1)
            if table.isEmpty then none
            else
              match r3 with
              | c3 :: _ =>
                  if isSpaceCh c3 then
                    joinMiddle typeStr table (skipSpaces r3)
                  else none
              | [] => none
          else none
      | [] => none

/-- Try each `(LEFT|RIGHT|INNER|OUTER|CROSS)?` alternative in pattern
order, the absent-type branch last (`group(1) or 'INNER'`). -/
def joinTryTypes : List (String × Chars) →
    Option (JoinD × Option Char × Chars)
  | [] => none
  | (ty, r) :: rest =>
      match joinAfterType ty r with
      | some res => some res
      | none => joinTryTypes rest

def matchJoinAt (prev : Option Char) (s : Chars) :
    Option (JoinD × Option Char × Chars) :=
  if !isBoundaryX prev s then none
  else
    joinTryTypes
      ((["LEFT", "RIGHT", "INNER", "OUTER", "CROSS"].filterMap (fun k =>
        (matchKw k.data s).map (fun r => (k, r)))) ++ [("INNER", s)])

/-- `re.finditer` driver for `_extract_joins` (lines 382-395). -/
def extractJoinsGo : Nat → Option Char → Chars → List JoinD
  | 0, _, _ => []
  | fuel + 1, prev, s =>
      match matchJoinAt prev s with
      | some (j, prev', rest) => j :: extractJoinsGo fuel prev' rest
      | none =>
          match s with
          | [] => []
          | c :: tl => extractJoinsGo fuel (some c) tl

def extractJoins (sql : Chars) : List JoinD :=
  extractJoinsGo (sql.length + 1) none sql

/-- Alias-map update, Python `aliases[k] = v`. -/
def aliasSet (d : List (String × String)) (k v : String) :
    List (String × String) :=
  match d with
  | [] => [(k, v)]
  | (k', v') :: rest =>
      if k' = k then (k', v) :: rest else (k', v') :: aliasSet rest k v

/-- The lookahead `(?=\s+(?:INNER|LEFT|RIGHT|CROSS|JOIN|WHERE|GROUP|ORDER|LIMIT|$))`
of the FROM-alias pattern: at least one whitespace then a keyword
prefix (no word boundary!) or the end of the string. -/
def fromAliasLook (r : Chars) : Bool :=
  match r with
  | [] => false
  | c :: _ =>
      isSpaceCh c &&
        (let rr := skipSpaces r
         rr.isEmpty ||
           (["INNER", "LEFT", "RIGHT", "CROSS", "JOIN", "WHERE", "GROUP",
             "ORDER", "LIMIT"].any (fun k => (matchKw k.data rr).isSome)))

/-- One match of the `_extract_table_aliases` FROM pattern
(query_parser.py line 207): returns (table, alias). -/
def matchFromAlias (prev : Option Char) : Chars → Option (Chars × Chars)
  | [] => none
  | c :: tl =>
      let tryHere : Option (Chars × Chars) :=
        if atBoundary prev then
          match matchKw "FROM".data (c :: tl) with
          | some rest =>
              match rest with
              | r :: _ =>
                  if isSpaceCh r then
                    let (table, r3) := wordRun (skipSpaces rest)
                    if table.isEmpty then none
                    else
                      match r3 with
                      | c3 :: _ =>
                          if isSpaceCh c3 then
                            let r4 := skipSpaces r3
                            let aliasStep (r : Chars) : Option (Chars × Chars) :=
                              let (al, rAl) := wordRun r
                              if al.isEmpty then none
                              else if fromAliasLook rAl then some (table, al)
                              else none
                            let withAs :=
                              match matchKw "AS".data r4 with
                              | some rA =>
                                  match rA with
                                  | cA :: _ =>
                                      if isSpaceCh cA then aliasStep (skipSpaces rA)
                                      else none
                                  | [] => none
                              | none => none
                            match withAs with
                            | some res => some res
                            | none => aliasStep r4
                          else none
                      | [] => none
                  else none
              | [] => none
          | none => none
        else none
      match tryHere with
      | some res => some res
      | none => matchFromAlias (some c) tl

/-- One match of the `_extract_table_aliases` JOIN pattern
`\bJOIN\s+(\w+)\s+(?:AS\s+)?(\w+)\s+ON` (line 215): returns
(table, alias, char before continuation, continuation). -/
def matchJoinAlias (prev : Option Char) :
    Chars → Option (Chars × Chars × Option Char × Chars)
  | [] => none
  | c :: tl =>
      let tryHere : Option (Chars × Chars × Option Char × Chars) :=
        if atBoundary prev then
          match matchKw "JOIN".data (c :: tl) with
          | some rest =>
              match rest with
              | r :: _ =>
                  if isSpaceCh r then
                    let (table, r3) := wordRun (skipSpaces rest)
                    if table.isEmpty then none
                    else
                      match r3 with
                      | c3 :: _ =>
                          if isSpaceCh c3 then
                            let r4 := skipSpaces r3
                            let aliasStep (r : Chars) :
                                Option (Chars × Chars × Option Char × Chars) :=
                              let (al, rAl) := wordRun r
                              if al.isEmpty then none
                              else
                                match rAl with
                                | cal :: _ =>
                                    if isSpaceCh cal then
                                      match matchKw "ON".data (skipSpaces rAl) with
                                      | some rOn =>
                                          some (table, al, some 'N', rOn)
                                      | none => none
                                    else none
                                | [] => none
                            let withAs :=
                              match matchKw "AS".data r4 with
                              | some rA =>
                                  match rA with
                                  | cA :: _ =>
                                      if isSpaceCh cA then aliasStep (skipSpaces rA)
                                      else none
                                  | [] => none
                              | none => none
                            match withAs with
                            | some res => some res
                            | none => aliasStep r4
                          else none
                      | [] => none
                  else none
              | [] => none
          | none => none
        else none
      match tryHere with
      | some res => some res
      | none => matchJoinAlias (some c) tl

def joinAliasAll : Nat → Option Char → Chars → List (Chars × Chars)
  | 0, _, _ => []
  | fuel + 1, prev, s =>
      match matchJoinAlias prev s with
      | some (t, al, prev', rest) => (t, al) :: joinAliasAll fuel prev' rest
      | none => []

/-- `_extract_table_aliases` (query_parser.py lines 202-220). -/
def extractTableAliases (sql : Chars) : List (String × String) :=
  let deny := ["INNER", "LEFT", "RIGHT", "CROSS", "JOIN", "WHERE", "GROUP",
               "ORDER", "LIMIT"]
  let base :=
    match matchFromAlias none sql with
    | some (t, al) =>
        if deny.contains (String.mk (upStr al)) then []
        else [(String.mk (lowStr al), String.mk (lowStr t))]
    | none => []
  (joinAliasAll (sql.length + 1) none sql).foldl
    (fun d (p : Chars × Chars) =>
      aliasSet d (String.mk (lowStr p.2)) (String.mk (lowStr p.1))) base

/-! ## CTE extraction (`query_parser.py` lines 103-182) -/

/-- The scan for where the CTE section ends and the main query begins
(query_parser.py lines 121-137): at parenthesis depth 0, the first
index whose stripped tail starts with SELECT/INSERT/UPDATE/DELETE. -/
def findMainIdx (depth : Int) (i : Nat) : Chars → Option Nat
  | [] => none
  | c :: tl =>
      if c = '(' then findMainIdx (depth + 1) (i + 1) tl
      else if c = ')' then findMainIdx (depth - 1) (i + 1) tl
      else if depth = 0 then
        let rest := upStr (strStrip (c :: tl))
        if isPrefixList "SELECT".data rest ∨ isPrefixList "INSERT".data rest
            ∨ isPrefixList "UPDATE".data rest ∨ isPrefixList "DELETE".data rest
        then some i
        else findMainIdx depth (i + 1) tl
      else findMainIdx depth (i + 1) tl

/-- The matching-parenthesis scan after `AS (` (lines 156-168):
index of the closing parenthesis, starting at depth 1. -/
def parenEndIdx (depth : Int) (i : Nat) : Chars → Option Nat
  | [] => none
  | c :: tl =>
      if c = '(' then parenEndIdx (depth + 1) (i + 1) tl
      else if c = ')' then
        if depth - 1 = 0 then some i else parenEndIdx (depth - 1) (i + 1) tl
      else parenEndIdx depth (i + 1) tl

/-- One match of the CTE header pattern
`(\w+)\s*(?:\(([^)]+)\))?\s*AS\s*\(` (query_parser.py line 147):
returns (name, optional column-list text, rest after the opening
parenthesis = `match.end()`). -/
def matchCtePat (s : Chars) : Option (Chars × Option Chars × Chars) :=
  let (w, r1) := wordRun s
  if w.isEmpty then none
  else
    let r2 := skipSpaces r1
    let finish (cols : Option Chars) (r : Chars) :
        Option (Chars × Option Chars × Chars) :=
      match matchKw "AS".data (skipSpaces r) with
      | some r6 =>
          match skipSpaces r6 with
          | '(' :: r7 => some (w, cols, r7)
          | _ => none
      | none => none
    let withCols : Option (Chars × Option Chars × Chars) :=
      match r2 with
      | '(' :: r3 =>
          let content := r3.takeWhile (· ≠ ')')
          if content.isEmpty then none
          else
            match r3.drop content.length with
            | ')' :: r4 => finish (some content) r4
            | _ => none
      | _ => none
    match withCols with
    | some res => some res
    | none => finish none r2

/-- `re.finditer` over the CTE header pattern, with the per-match
closing-parenthesis scan and `CTEDefinition` construction (lines
149-180).  Scanning resumes at `match.end()`, i.e. just after `AS (` —
inside the body, exactly as the source does. -/
def extractCtesGo (isRec : Bool) : Nat → Chars → List CTEDef
  | 0, _ => []
  | _ + 1, [] => []
  | fuel + 1, c :: tl =>
      match matchCtePat (c :: tl) with
      | none => extractCtesGo isRec fuel tl
      | some (w, cols, rest) =>
          let endIdx := (parenEndIdx 1 0 rest).getD 0
          let query := strStrip (rest.take endIdx)
          let name := lowStr w
          let cte : CTEDef :=
            { name := String.mk name, query := String.mk query,
              isRecursive := isRec && containsSub name (lowStr query),
              columns :=
                match cols with
                | some content =>
                    (splitOnCh ',' content).map (fun c => String.mk (strStrip c))
                | none => [] }
          cte :: extractCtesGo isRec fuel rest

/-- `_extract_ctes` (query_parser.py lines 103-182). -/
def extractCtes (sql : Chars) : List CTEDef × Chars :=
  let sqlUpper := upStr sql
  let isRec := containsSub "WITH RECURSIVE".data sqlUpper
  let remaining :=
    if isRec then
      strStrip (sql.drop (((findSubIdx? "WITH RECURSIVE".data sqlUpper).getD 0) + 14))
    else
      strStrip (sql.drop (((findSubIdx? "WITH".data sqlUpper).getD 0) + 4))
  match findMainIdx 0 0 remaining with
  | none => ([], remaining)
  | some 0 => ([], remaining)
  | some i =>
      let cteSection := remaining.take i
      let mainQuery := strStrip (remaining.drop i)
      (extractCtesGo isRec (cteSection.length + 1) cteSection, mainQuery)

/-- `parse_query` (query_parser.py lines 42-100).  The result is
`Option`-valued because of the one genuinely partial operation in the
parser (`int` conversion inside `_extract_limit`); everything else is
total.  The function touches no state. -/
def parseQueryM (sqlS : String) : Option ParsedQuery :=
  let sql := strStrip sqlS.data
  let sqlUpper := upStr sql
  let startsWithCte := isPrefixList "WITH".data sqlUpper
  let (ctes, mainQuery, isRec) :=
    if startsWithCte then
      let (cs, mq) := extractCtes sql
      (cs, mq, containsSub "WITH RECURSIVE".data sqlUpper)
    else ([], sql, false)
  let mainUpper := upStr (strStrip mainQuery)
  let queryType :=
    if isPrefixList "SELECT".data mainUpper then "SELECT"
    else if isPrefixList "INSERT".data mainUpper then "INSERT"
    else if isPrefixList "UPDATE".data mainUpper then "UPDATE"
    else if isPrefixList "DELETE".data mainUpper then "DELETE"
    else if startsWithCte then "SELECT"
    else "UNKNOWN"
  match extractLimit mainQuery with
  | none => none
  | some lim =>
      some { queryType := queryType,
             tables := extractTables mainQuery,
             columns := extractColumns mainQuery,
             whereConditions := extractWhere mainQuery,
             groupBy := extractGroupBy mainQuery,
             havingConditions := extractHaving mainQuery,
             orderBy := extractOrderBy mainQuery,
             limit := lim,
             joins := extractJoins mainQuery,
             rawQuery := String.mk sql,
             ctes := ctes,
             mainQuery := String.mk mainQuery,
             isRecursive := isRec,
             tableAliases := extractTableAliases mainQuery }

/-! ## Executor (`app/engine/query_executor.py`)

State: the Python object's `_cte_tables` / `_cte_columns` dicts become an
explicit environment threaded through the pipeline.  Failure: structured
`QueryError`s raised by validation, and the Python runtime exceptions
(`TypeError` from mixed-type arithmetic or aggregation) that the source
lets escape, are the two error channels of an `Except`. -/

/-- The `errors.py` taxonomy as far as the executor raises it (the
fuzzy "did you mean" suggestion strings are presentation data and are
not modelled). -/
inductive QErr where
  | emptyQuery
  | syntaxErr (msg : String)
  | unknownTable (table : String) (available : List String)
  | unknownColumn (col : String) (table : String) (available : List String)
  | unsupportedFeature (feature : String) (suggestion : String)
deriving DecidableEq, Repr

/-- A Python runtime exception escaping the interpreter (`TypeError`
from `+`/`sum`/`max` on incompatible values, unparseable fallback…). -/
inductive PyExn where
  | typeErr (msg : String)
deriving DecidableEq, Repr

inductive ExecErr where
  | qerr (e : QErr)
  | pyexn (e : PyExn)
deriving DecidableEq, Repr

/-- Generic Python `d[k] = v` on an association list. -/
def assocSet {α : Type} (d : List (String × α)) (k : String) (v : α) :
    List (String × α) :=
  match d with
  | [] => [(k, v)]
  | (k', v') :: rest =>
      if k' = k then (k', v) :: rest else (k', v') :: assocSet rest k v

def assocGet? {α : Type} (d : List (String × α)) (k : String) : Option α :=
  match d with
  | [] => none
  | (k', v) :: rest => if k' = k then some v else assocGet? rest k

def assocHas {α : Type} (d : List (String × α)) (k : String) : Bool :=
  (assocGet? d k).isSome

/-- The executor's CTE registry (`self._cte_tables`, `self._cte_columns`),
reset at the start of every `execute` call. -/
structure CteEnv where
  tables : List (String × List Row)
  columns : List (String × List String)
deriving Repr

def CteEnv.empty : CteEnv := ⟨[], []⟩

def envSetTable (env : CteEnv) (name : String) (rows : List Row)
    (cols : List String) : CteEnv :=
  { tables := assocSet env.tables name rows,
    columns := assocSet env.columns name cols }

/-- The dataset collaborator: `get_table` and the `indexes` mapping
`table -> index_name -> (column, sorted values)` (dataset.py lines
94-124).  Rows arrive as dicts (`_row_to_dict` of a dataclass row =
its fields in declaration order). -/
structure PyDataset where
  getTable : String → List Row
  indexes : List (String × List (String × (String × List Value)))

/-- `QueryExecutor.TABLE_COLUMNS` (query_executor.py lines 35-42). -/
def TABLE_COLUMNS : List (String × List String) :=
  [("employees", ["id", "name", "department_id", "manager_id", "salary",
                  "hire_date", "email", "phone"]),
   ("departments", ["id", "name", "budget", "location"]),
   ("customers", ["id", "name", "email", "city", "country", "credit_limit",
                  "created_at"]),
   ("products", ["id", "name", "category", "price", "stock_quantity",
                 "weight", "is_active"]),
   ("orders", ["id", "customer_id", "employee_id", "order_date",
               "shipped_date", "status", "notes"]),
   ("order_items", ["id", "order_id", "product_id", "quantity", "unit_price",
                    "discount"])]

/-- `QueryExecutor.AVAILABLE_TABLES` (line 33). -/
def AVAILABLE_TABLES : List String :=
  ["employees", "departments", "customers", "products", "orders",
   "order_items"]

/-- `QueryExecutor.MAX_RECURSION_DEPTH` (line 45). -/
def MAX_RECURSION_DEPTH : Nat := 100

def strLower (s : String) : String := String.mk (lowStr s.data)
def strUpper (s : String) : String := String.mk (upStr s.data)

/-- Python `==` on engine values: numeric equality across int/float,
string equality, `None == None` is `True`, any cross-kind comparison is
`False` (no exception). -/
def pyEq : Value → Value → Bool
  | .vint a, .vint b => a = b
  | .vint a, .vfloat b => (a : Rat) = b
  | .vfloat a, .vint b => a = (b : Rat)
  | .vfloat a, .vfloat b => a = b
  | .vstr a, .vstr b => a = b
  | .vnull, .vnull => true
  | _, _ => false

/-- Python `<` where it is defined: numeric pairs and string pairs.
`none` is the `TypeError` Python raises on any other combination. -/
def pyLt? : Value → Value → Option Bool
  | .vint a, .vint b => some (a < b)
  | .vint a, .vfloat b => some ((a : Rat) < b)
  | .vfloat a, .vint b => some (a < (b : Rat))
  | .vfloat a, .vfloat b => some (a < b)
  | .vstr a, .vstr b => some (a < b)
  | _, _ => none

/-- `str(row_val)` as used by the LIKE branch.  Faithful for the kinds
the claims exercise (ints, strings, None); Python's float formatting is
approximated. -/
def valueToStr : Value → String
  | .vint n => toString n
  | .vstr s => s
  | .vnull => "None"
  | .vfloat q => toString q.num ++ "/" ++ toString q.den

/-- The regex built from a LIKE pattern after
`replace('%','.*').replace('_','.')`, matched with `re.match(^…$, s, I)`:
`%` matches any sequence, `_`/`.` any single character, anything else
itself case-insensitively (other regex metacharacters in the value are
outside the modelled subset). -/
def globMatch : Chars → Chars → Bool
  | [], [] => true
  | [], _ :: _ => false
  | '%' :: ps, text =>
      globMatch ps text ||
        (match text with
         | [] => false
         | _ :: ts => globMatch ('%' :: ps) ts)
  | '_' :: ps, _ :: ts => globMatch ps ts
  | '.' :: ps, _ :: ts => globMatch ps ts
  | _ :: _, [] => false
  | p :: ps, t :: ts => upCh p = upCh t && globMatch ps ts
termination_by p t => (p.length, t.length)

/-- `QueryExecutor._compare` (query_executor.py lines 625-648): the
`try/except TypeError: return False` turns every undefined comparison
into "no match"; unknown operators fall through to `False`. -/
def pyCompare (rowVal : Value) (op : String) (condVal : CondVal) : Bool :=
  if op = "=" then
    match condVal with
    | .scalar v => pyEq rowVal v
    | .listv _ => false      -- value == [list] is False in Python
    | .nonev => rowVal = .vnull
  else if op = "!=" ∨ op = "<>" then
    match condVal with
    | .scalar v => !pyEq rowVal v
    | .listv _ => true
    | .nonev => rowVal ≠ .vnull
  else if op = ">" then
    match condVal with
    | .scalar v => ((pyLt? v rowVal).getD false)
    | _ => false
  else if op = "<" then
    match condVal with
    | .scalar v => ((pyLt? rowVal v).getD false)
    | _ => false
  else if op = ">=" then
    match condVal with
    | .scalar v => ((pyLt? rowVal v).map (fun b => !b || pyEq rowVal v)).getD false
    | _ => false
  else if op = "<=" then
    match condVal with
    | .scalar v => ((pyLt? v rowVal).map (fun b => !b || pyEq rowVal v)).getD false
    | _ => false
  else if op = "IN" then
    match condVal with
    | .listv vs => vs.any (pyEq rowVal)
    | _ => false             -- `in` on a non-container raises TypeError → caught → False
  else if op = "LIKE" then
    match condVal with
    | .scalar (.vstr pat) => globMatch pat.data (valueToStr rowVal).data
    | _ => false
  else false

/-- `QueryExecutor._row_matches_conditions` (lines 598-623). -/
def rowMatchesConditions (row : Row) : List Cond → Bool
  | [] => true
  | c :: rest =>
      let rowVal := rowGet row c.column
      if c.op = "IS NULL" then
        if rowVal ≠ .vnull then false else rowMatchesConditions row rest
      else if c.op = "IS NOT NULL" then
        if rowVal = .vnull then false else rowMatchesConditions row rest
      else if rowVal = .vnull then false
      else if pyCompare rowVal c.op c.value then rowMatchesConditions row rest
      else false

/-- `QueryExecutor._apply_where` (lines 588-596). -/
def applyWhere (data : List Row) (conds : List Cond) : List Row :=
  data.filter (fun r => rowMatchesConditions r conds)

/-- Scanner for `(\w+)\.(\w+)\s*=\s*(\w+)\.(\w+)` (first match):
the dotted equality inside a JOIN ON clause. -/
def scanDottedEq : Chars → Option (Chars × Chars × Chars × Chars)
  | [] => none
  | c :: tl =>
      let tryHere : Option (Chars × Chars × Chars × Chars) :=
        let (w1, r1) := wordRun (c :: tl)
        if w1.isEmpty then none
        else
          match r1 with
          | '.' :: r2 =>
              let (w2, r3) := wordRun r2
              if w2.isEmpty then none
              else
                match skipSpaces r3 with
                | '=' :: r4 =>
                    let (w3, r5) := wordRun (skipSpaces r4)
                    if w3.isEmpty then none
                    else
                      match r5 with
                      | '.' :: r6 =>
                          let (w4, _) := wordRun r6
                          if w4.isEmpty then none else some (w1, w2, w3, w4)
                      | _ => none
                | _ => none
          | _ => none
      match tryHere with
      | some res => some res
      | none => scanDottedEq tl

/-- `QueryExecutor._parse_join_on` (lines 567-586): hardcoded default
pairs when the ON clause is absent; `('id','id')` when it is present
but does not contain a dotted equality. -/
def parseJoinOn (onClause : Option String) (leftTable rightTable : String) :
    String × String :=
  let truthy := match onClause with
    | none => false
    | some s => s ≠ ""
  if !truthy then
    if leftTable = "employees" ∧ rightTable = "departments" then
      ("department_id", "id")
    else if leftTable = "orders" ∧ rightTable = "employees" then
      ("employee_id", "id")
    else ("id", "id")
  else
    match scanDottedEq (onClause.getD "").data with
    | some (t1, c1, _, c2) =>
        if strLower (String.mk t1) = strLower leftTable then
          (String.mk (lowStr c1), String.mk (lowStr c2))
        else (String.mk (lowStr c2), String.mk (lowStr c1))
    | none => ("id", "id")

/-- Prefixed copy `{f"{table}.{k}": v for k, v in row.items()}`. -/
def prefixRow (table : String) (r : Row) : Row :=
  r.map (fun kv => (table ++ "." ++ kv.1, kv.2))

/-- The combined row an INNER/matched join emits (lines 543-547). -/
def joinCombine (leftTable rightTable : String) (lRow rRow : Row) : Row :=
  let c1 := dictUpdate (prefixRow leftTable lRow) (prefixRow rightTable rRow)
  let c2 := dictUpdate c1 lRow
  dictUpdate c2 (rRow.filter (fun kv => !dictHas c2 kv.1))

/-- `QueryExecutor._apply_join` (lines 520-565). -/
def applyJoin (leftData rightData : List Row) (joinInfo : JoinD)
    (leftTable rightTable : String) : List Row :=
  let joinType := joinInfo.type
  let (leftCol, rightCol) := parseJoinOn joinInfo.onClause leftTable rightTable
  let step := fun (acc : List Row × List Nat) (lRow : Row) =>
    let lVal := rowGet lRow leftCol
    let hits := rightData.enum.filter (fun ir => pyEq lVal (rowGet ir.2 rightCol))
    let newRows := hits.map (fun ir => joinCombine leftTable rightTable lRow ir.2)
    let acc1 := (acc.1 ++ newRows, acc.2 ++ hits.map (·.1))
    if hits.isEmpty ∧ (joinType = "LEFT" ∨ joinType = "LEFT OUTER") then
      let nullRight : Row :=
        match rightData with
        | r0 :: _ => prefixRow rightTable (r0.map (fun kv => (kv.1, Value.vnull)))
        | [] => []
      let combined := dictUpdate (dictUpdate (prefixRow leftTable lRow) nullRight) lRow
      (acc1.1 ++ [combined], acc1.2)
    else acc1
  let (result, rightMatched) := leftData.foldl step ([], [])
  if joinType = "RIGHT" ∨ joinType = "RIGHT OUTER" then
    result ++ (rightData.enum.filterMap (fun ir =>
      if rightMatched.contains ir.1 then none
      else
        let nullLeft : Row :=
          match leftData with
          | l0 :: _ => prefixRow leftTable (l0.map (fun kv => (kv.1, Value.vnull)))
          | [] => []
        some (dictUpdate (dictUpdate nullLeft (prefixRow rightTable ir.2)) ir.2)))
  else result

/-- `QueryExecutor._get_table_data` (lines 499-512): the CTE registry
first, then the dataset collaborator. -/
def getTableData (ds : PyDataset) (env : CteEnv) (tableName : String) :
    List Row :=
  match assocGet? env.tables (strLower tableName) with
  | some rows => rows
  | none => ds.getTable tableName

/-! ### Arithmetic and aggregation on values -/

/-- Python `+` (`TypeError` on undefined combinations). -/
def pyAdd? : Value → Value → Except PyExn Value
  | .vint a, .vint b => .ok (.vint (a + b))
  | .vint a, .vfloat b => .ok (.vfloat ((a : Rat) + b))
  | .vfloat a, .vint b => .ok (.vfloat (a + (b : Rat)))
  | .vfloat a, .vfloat b => .ok (.vfloat (a + b))
  | .vstr a, .vstr b => .ok (.vstr (a ++ b))
  | _, _ => .error (.typeErr "unsupported operand type(s) for +")

/-- Python `-`. -/
def pySub? : Value → Value → Except PyExn Value
  | .vint a, .vint b => .ok (.vint (a - b))
  | .vint a, .vfloat b => .ok (.vfloat ((a : Rat) - b))
  | .vfloat a, .vint b => .ok (.vfloat (a - (b : Rat)))
  | .vfloat a, .vfloat b => .ok (.vfloat (a - b))
  | _, _ => .error (.typeErr "unsupported operand type(s) for -")

/-- Python `*` (including string repetition by an int). -/
def pyMul? : Value → Value → Except PyExn Value
  | .vint a, .vint b => .ok (.vint (a * b))
  | .vint a, .vfloat b => .ok (.vfloat ((a : Rat) * b))
  | .vfloat a, .vint b => .ok (.vfloat (a * (b : Rat)))
  | .vfloat a, .vfloat b => .ok (.vfloat (a * b))
  | .vstr a, .vint n => .ok (.vstr (String.join (List.replicate n.toNat a)))
  | .vint n, .vstr a => .ok (.vstr (String.join (List.replicate n.toNat a)))
  | _, _ => .error (.typeErr "unsupported operand type(s) for *")

/-- Python `/` (true division: the result is always a float). -/
def pyDiv? : Value → Value → Except PyExn Value
  | .vint a, .vint b =>
      if b = 0 then .error (.typeErr "division by zero")
      else .ok (.vfloat ((a : Rat) / (b : Rat)))
  | .vint a, .vfloat b =>
      if b = 0 then .error (.typeErr "division by zero")
      else .ok (.vfloat ((a : Rat) / b))
  | .vfloat a, .vint b =>
      if b = 0 then .error (.typeErr "division by zero")
      else .ok (.vfloat (a / (b : Rat)))
  | .vfloat a, .vfloat b =>
      if b = 0 then .error (.typeErr "division by zero")
      else .ok (.vfloat (a / b))
  | _, _ => .error (.typeErr "unsupported operand type(s) for /")

/-- Python `sum(vals)` (starts from the int 0). -/
def pySum (vals : List Value) : Except PyExn Value :=
  vals.foldlM pyAdd? (.vint 0)

/-- Python `max(vals)` on a non-empty list (`<` raising on mixed kinds). -/
def pyMaxList : List Value → Except PyExn Value
  | [] => .error (.typeErr "max() arg is an empty sequence")
  | v :: rest =>
      rest.foldlM (fun cur x =>
        match pyLt? cur x with
        | some b => .ok (if b then x else cur)
        | none => .error (.typeErr "unorderable types in max()")) v

/-- Python `min(vals)` on a non-empty list. -/
def pyMinList : List Value → Except PyExn Value
  | [] => .error (.typeErr "min() arg is an empty sequence")
  | v :: rest =>
      rest.foldlM (fun cur x =>
        match pyLt? x cur with
        | some b => .ok (if b then x else cur)
        | none => .error (.typeErr "unorderable types in min()")) v

def valueAsRat? : Value → Option Rat
  | .vint n => some (n : Rat)
  | .vfloat q => some q
  | _ => none

/-- `re.search(r'AGG\((\w+)\)', source_expr, re.IGNORECASE)`: the
aggregate-argument scanners of lines 333-359 / 690-716. -/
def scanAggCol (agg : Chars) : Chars → Option String
  | [] => none
  | c :: tl =>
      let tryHere : Option String :=
        match matchKw (agg ++ ['(']) (c :: tl) with
        | some r =>
            let (w, r2) := wordRun r
            if w.isEmpty then none
            else
              match r2 with
              | ')' :: _ => some (String.mk w)
              | _ => none
        | none => none
      match tryHere with
      | some res => some res
      | none => scanAggCol agg tl

/-- `re.split(r'\s+AS\s+', …)` separator at the head: rest after it. -/
def matchASsep (s : Chars) : Option Chars :=
  match s with
  | c :: _ =>
      if isSpaceCh c then
        match matchKw "AS".data (skipSpaces s) with
        | some r =>
            match r with
            | c2 :: _ => if isSpaceCh c2 then some (skipSpaces r) else none
            | [] => none
        | none => none
      else none
  | [] => none

def splitASGo : Nat → Chars → List Chars → Chars → List Chars
  | _, current, acc, [] => (current.reverse :: acc).reverse
  | 0, current, acc, s => ((current.reverse ++ s) :: acc).reverse
  | fuel + 1, current, acc, c :: tl =>
      match matchASsep (c :: tl) with
      | some rest => splitASGo fuel [] (current.reverse :: acc) rest
      | none => splitASGo fuel (c :: current) acc tl

/-- Python `re.split(r'\s+AS\s+', s, flags=re.IGNORECASE)`. -/
def splitAS (s : Chars) : List Chars := splitASGo (s.length + 1) [] [] s

/-- The `' AS ' in col_expr.upper()` guard used throughout. -/
def hasAS (s : Chars) : Bool := containsSub " AS ".data (upStr s)

/-- `QueryExecutor._is_aggregate` (lines 302-306). -/
def isAggregate (colExpr : String) : Bool :=
  let up := upStr colExpr.data
  ["COUNT(", "SUM(", "AVG(", "MAX(", "MIN("].any
    (fun a => containsSub a.data up)

/-- `QueryExecutor._has_aggregates` (lines 308-310). -/
def hasAggregates (columns : List String) : Bool :=
  columns.any isAggregate

/-- The shared alias/source split of an aggregate select expression
(lines 319-325 / 676-682). -/
def aggAliasSource (colExpr : String) : String × String :=
  if hasAS colExpr.data then
    let parts := splitAS colExpr.data
    (String.mk (strStrip (parts.getD 1 [])), String.mk (strStrip (parts.getD 0 [])))
  else (colExpr, colExpr)

/-- The aggregate-evaluation chain of `_apply_aggregate_no_group`
(lines 327-360): `none` when no aggregate could be computed (the value
stays Python `None` and the column is not added). -/
def aggValueNoGroup (data : List Row) (sourceExpr : String) :
    Except PyExn (Option Value) :=
  let sourceUpper := upStr sourceExpr.data
  let colVals (col : String) : List Value :=
    data.filterMap (fun r =>
      let v := rowGet r col
      if v ≠ .vnull then some v else none)
  if containsSub "COUNT(*)".data sourceUpper then
    .ok (some (.vint data.length))
  else if containsSub "COUNT(".data sourceUpper then
    match scanAggCol "COUNT".data sourceExpr.data with
    | some col => .ok (some (.vint (colVals col).length))
    | none => .ok none
  else if containsSub "SUM(".data sourceUpper then
    match scanAggCol "SUM".data sourceExpr.data with
    | some col =>
        let vals := colVals col
        if vals.isEmpty then .ok (some (.vint 0))
        else (pySum vals).map some
    | none => .ok none
  else if containsSub "AVG(".data sourceUpper then
    match scanAggCol "AVG".data sourceExpr.data with
    | some col =>
        let vals := colVals col
        if vals.isEmpty then .ok (some (.vint 0))
        else do
          let s ← pySum vals
          match valueAsRat? s with
          | some q => .ok (some (.vfloat (q / (vals.length : Rat))))
          | none => .error (.typeErr "unsupported operand type(s) for /")
    | none => .ok none
  else if containsSub "MAX(".data sourceUpper then
    match scanAggCol "MAX".data sourceExpr.data with
    | some col =>
        let vals := colVals col
        if vals.isEmpty then .ok none else (pyMaxList vals).map some
    | none => .ok none
  else if containsSub "MIN(".data sourceUpper then
    match scanAggCol "MIN".data sourceExpr.data with
    | some col =>
        let vals := colVals col
        if vals.isEmpty then .ok none else (pyMinList vals).map some
    | none => .ok none
  else .ok none

/-- `QueryExecutor._apply_aggregate_no_group` (lines 312-365). -/
def applyAggregateNoGroup (data : List Row) (selectCols : List String) :
    Except PyExn (List Row) := do
  let resultRow ← selectCols.foldlM (fun row colExpr => do
    let (als, source) := aggAliasSource colExpr
    match ← aggValueNoGroup data source with
    | some v => pure (dictSet row als v)
    | none => pure row) ([] : Row)
  pure (if resultRow.isEmpty then [] else [resultRow])

def listPyEq (k1 k2 : List Value) : Bool :=
  k1.length = k2.length && (k1.zip k2).all (fun p => pyEq p.1 p.2)

/-- Python dict-of-groups accumulation (lines 653-659): append the row
to the group with an equal key, else register a new group at the end. -/
def groupsAdd (gs : List (List Value × List Row)) (key : List Value)
    (row : Row) : List (List Value × List Row) :=
  match gs with
  | [] => [(key, [row])]
  | (k, rs) :: rest =>
      if listPyEq k key then (k, rs ++ [row]) :: rest
      else (k, rs) :: groupsAdd rest key row

/-- The per-group aggregate chain of `_apply_group_by` (lines 684-716);
note the SUM branch here sums `r.get(col, 0)` without filtering `None`
(unlike the no-GROUP-BY path). -/
def aggValueGroup (rows : List Row) (sourceExpr : String) :
    Except PyExn (Option Value) :=
  let sourceUpper := upStr sourceExpr.data
  let colVals (col : String) : List Value :=
    rows.filterMap (fun r =>
      let v := rowGet r col
      if v ≠ .vnull then some v else none)
  if containsSub "COUNT(*)".data sourceUpper then
    .ok (some (.vint rows.length))
  else if containsSub "COUNT(".data sourceUpper then
    match scanAggCol "COUNT".data sourceExpr.data with
    | some col => .ok (some (.vint (colVals col).length))
    | none => .ok none
  else if containsSub "SUM(".data sourceUpper then
    match scanAggCol "SUM".data sourceExpr.data with
    | some col =>
        (pySum (rows.map (fun r => (dictGet? r col).getD (.vint 0)))).map some
    | none => .ok none
  else if containsSub "AVG(".data sourceUpper then
    match scanAggCol "AVG".data sourceExpr.data with
    | some col =>
        let vals := colVals col
        if vals.isEmpty then .ok (some (.vint 0))
        else do
          let s ← pySum vals
          match valueAsRat? s with
          | some q => .ok (some (.vfloat (q / (vals.length : Rat))))
          | none => .error (.typeErr "unsupported operand type(s) for /")
    | none => .ok none
  else if containsSub "MAX(".data sourceUpper then
    match scanAggCol "MAX".data sourceExpr.data with
    | some col =>
        let vals := colVals col
        if vals.isEmpty then .ok none else (pyMaxList vals).map some
    | none => .ok none
  else if containsSub "MIN(".data sourceUpper then
    match scanAggCol "MIN".data sourceExpr.data with
    | some col =>
        let vals := colVals col
        if vals.isEmpty then .ok none else (pyMinList vals).map some
    | none => .ok none
  else .ok none

/-- `QueryExecutor._apply_group_by` (lines 650-723). -/
def applyGroupBy (data : List Row) (groupCols selectCols : List String) :
    Except PyExn (List Row) := do
  let groups := data.foldl
    (fun gs row => groupsAdd gs (groupCols.map (rowGet row)) row) []
  groups.mapM (fun kr => do
    let base := (groupCols.enum).foldl
      (fun r ic => dictSet r ic.2 (kr.1.getD ic.1 .vnull)) ([] : Row)
    selectCols.foldlM (fun groupRow colExpr => do
      if groupCols.contains colExpr then pure groupRow
      else
        let (als, source) := aggAliasSource colExpr
        match ← aggValueGroup kr.2 source with
        | some v => pure (dictSet groupRow als v)
        | none => pure groupRow) base)

/-- `QueryExecutor._apply_having` (lines 725-746): the aggregate value
is looked up by the expression text with default `0`. -/
def applyHaving (data : List Row) (conds : List HCond) : List Row :=
  data.filter (fun row => conds.all (fun c =>
    pyCompare ((dictGet? row c.expression).getD (.vint 0)) c.op (.scalar c.value)))

/-! ### ORDER BY (lines 748-764)

Python's `sorted` is a stable sort by the computed key tuples; any two
stable sorts produce the same output, so it is modelled with a stable
insertion sort (`pySorted`), which the kernel can evaluate on concrete
inputs (its permutation, sortedness and stability properties are proved
below).  The comparator is Python's `<`/`==` on the key values where
Python defines them (numbers with numbers, strings with strings); on
mixed kinds Python raises `TypeError` — the model totalises those cases
with a fixed kind ranking, and every statement about sorting concerns
homogeneous keys, where the two coincide. -/

/-- Insert after every element `b` with `le b a` (so after existing
equal elements — the stable position). -/
def pyInsertSorted {α : Type} (le : α → α → Bool) (a : α) : List α → List α
  | [] => [a]
  | b :: bs => if le b a then b :: pyInsertSorted le a bs else a :: b :: bs

/-- Stable sort by a boolean comparator: Python's `sorted(data, key=…)`
modulo the key function being pre-applied in the comparator. -/
def pySorted {α : Type} (le : α → α → Bool) (l : List α) : List α :=
  l.foldl (fun acc x => pyInsertSorted le x acc) []

def valRank : Value → Nat
  | .vint _ => 0
  | .vfloat _ => 0
  | .vstr _ => 1
  | .vnull => 2

/-- Total extension of Python's `<=` on values, used only inside the
comparability-guarded success branch of `applyOrderBy` (where every
comparison it performs is one Python defines): on same-kind pairs
(numeric with numeric, string with string) it is Python's comparison;
on mixed kinds, where Python raises `TypeError`, it falls back to an
arbitrary kind ranking that the guarded branch never exercises.
`valLeB_of_pyEq` / `valLeB_of_pyLt_true` / `valLeB_of_pyLt_false` prove
the agreement with `pyEq` / `pyLt?` on the comparable domain. -/
def valLeB : Value → Value → Bool
  | .vint a, .vint b => a ≤ b
  | .vint a, .vfloat b => (a : Rat) ≤ b
  | .vfloat a, .vint b => a ≤ (b : Rat)
  | .vfloat a, .vfloat b => a ≤ b
  | .vstr a, .vstr b => a ≤ b
  | x, y => valRank x ≤ valRank y

/-- Total lexicographic comparison of key tuples built on `valLeB`;
again only ever applied under the comparability guard, where
`keyLeB_iff_not_keyLt` proves it coincides with Python's tuple
ordering `not (k2 < k1)`. -/
def keyLeB : List Value → List Value → Bool
  | [], _ => true
  | _ :: _, [] => false
  | a :: as', b :: bs =>
      if valLeB a b && !valLeB b a then true
      else if valLeB b a && !valLeB a b then false
      else keyLeB as' bs

/-- Python's tuple comparison `k1 < k2` as `sorted` performs it: find
the first position where the items are not `==`, apply `<` there;
`none` is the `TypeError` of an undefined `<` (e.g. a string against a
number).  Equal tuples, and a shorter tuple exhausted first, decide
without `<`. -/
def keyLt? : List Value → List Value → Option Bool
  | [], [] => some false
  | [], _ :: _ => some true
  | _ :: _, [] => some false
  | a :: as', b :: bs => if pyEq a b then keyLt? as' bs else pyLt? a b

/-- The `sort_key` closure (lines 753-762): per ORDER BY column, value
with default `0`, `None` replaced by `0`, numeric values negated for
DESC. -/
def sortKey (orderBy : List (String × String)) (row : Row) : List Value :=
  orderBy.map (fun cd =>
    let val0 := (dictGet? row cd.1).getD (.vint 0)
    let val1 := if val0 = .vnull then .vint 0 else val0
    if cd.2 = "DESC" then
      match val1 with
      | .vint n => .vint (-n)
      | .vfloat q => .vfloat (-q)
      | v => v
    else val1)

/-- `QueryExecutor._apply_order_by` (lines 748-764).  The `sorted`
call raises an uncaught `TypeError` when it compares two keys whose
first differing items have no `<`.  Two incomparable keys can never be
ordered through intermediate comparisons (any middle key would have to
compare against both sides at the deciding position), so a sort that
orders them must compare them and raise; conversely pairwise-comparable
keys make every comparison `sorted` performs defined.  Hence the call
succeeds exactly when the keys are pairwise comparable, returning the
stable ascending order, and raises `TypeError` otherwise. -/
def applyOrderBy (data : List Row) (orderBy : List (String × String)) :
    Except PyExn (List Row) :=
  if orderBy.isEmpty then .ok data
  else if (data.map (sortKey orderBy)).all (fun k1 =>
      (data.map (sortKey orderBy)).all (fun k2 => (keyLt? k1 k2).isSome)) then
    .ok (pySorted (fun r1 r2 =>
      keyLeB (sortKey orderBy r1) (sortKey orderBy r2)) data)
  else .error (.typeErr "unorderable types in ORDER BY key")

/-! ### Projection, expressions, literal SELECT -/

/-- `QueryExecutor._parse_literal_value` (lines 439-447): strip
whitespace, strip quotes, then int / float / string fallback. -/
def parseLiteralValue (s : Chars) : Value :=
  let v := strStripSet ['\'', '"'] (strStrip s)
  if v.contains '.' then
    match parseFloatPy? v with
    | some q => .vfloat q
    | none => .vstr (String.mk v)
  else
    match parseIntPy? v with
    | some n => .vint n
    | none => .vstr (String.mk v)

/-- `re.match(r'(\w+)\s*([+\-*/])\s*(\d+(?:\.\d+)?)', expr)` (line 459,
anchored): (column, operator, numeric token). -/
def matchArith1 (s : Chars) : Option (Chars × Char × Chars) :=
  let (w, r1) := wordRun s
  if w.isEmpty then none
  else
    match skipSpaces r1 with
    | op :: r2 =>
        if op = '+' ∨ op = '-' ∨ op = '*' ∨ op = '/' then
          match digitTok (skipSpaces r2) with
          | some (num, _) => some (w, op, num)
          | none => none
        else none
    | [] => none

/-- `re.match(r'(\w+)\.(\w+)\s*([+\-*/])\s*(\d+(?:\.\d+)?)', expr)`
(line 474, anchored): (table, column, operator, numeric token). -/
def matchArith2 (s : Chars) : Option (Chars × Chars × Char × Chars) :=
  let (w1, r1) := wordRun s
  if w1.isEmpty then none
  else
    match r1 with
    | '.' :: r2 =>
        let (w2, r3) := wordRun r2
        if w2.isEmpty then none
        else
          match skipSpaces r3 with
          | op :: r4 =>
              if op = '+' ∨ op = '-' ∨ op = '*' ∨ op = '/' then
                match digitTok (skipSpaces r4) with
                | some (num, _) => some (w1, w2, op, num)
                | none => none
              else none
          | [] => none
    | _ => none

/-- `num_val = float(num) if '.' in num else int(num)` (lines 463/478);
the token comes from the digit scanner, so the conversions succeed. -/
def numTokValue (num : Chars) : Value :=
  if num.contains '.' then .vfloat ((parseFloatPy? num).getD 0)
  else .vint ((parseIntPy? num).getD 0)

/-- The four arithmetic branches of `_evaluate_expression`
(lines 464-471/479-486), including `x / 0 = 0`. -/
def pyArith (a : Value) (op : Char) (b : Value) : Except PyExn Value :=
  if op = '+' then pyAdd? a b
  else if op = '-' then pySub? a b
  else if op = '*' then pyMul? a b
  else if pyEq b (.vint 0) then .ok (.vint 0)
  else pyDiv? a b

/-- `QueryExecutor._evaluate_expression` (lines 449-497). -/
def evaluateExpression (exprS : String) (row : Row) : Except PyExn Value :=
  let expr0 := strStrip exprS.data
  let expr :=
    if hasAS expr0 then strStrip ((splitAS expr0).getD 0 []) else expr0
  match matchArith1 expr with
  | some (col, op, num) =>
      pyArith ((dictGet? row (String.mk col)).getD (.vint 0)) op (numTokValue num)
  | none =>
      match matchArith2 expr with
      | some (tbl, col, op, num) =>
          let colVal :=
            match dictGet? row (String.mk col) with
            | some v => v
            | none =>
                (dictGet? row (String.mk tbl ++ "." ++ String.mk col)).getD (.vint 0)
          pyArith colVal op (numTokValue num)
      | none =>
          if dictHas row (String.mk expr) then .ok (rowGet row (String.mk expr))
          else if dictHas row (strLower (String.mk expr)) then
            .ok (rowGet row (strLower (String.mk expr)))
          else .ok (parseLiteralValue expr)

/-- `QueryExecutor._execute_literal_select` (lines 412-437). -/
def executeLiteralSelect (parsed : ParsedQuery) : List Row × List String :=
  let (row, cols) := parsed.columns.foldl (fun acc colExpr0 =>
    let colExpr := strStrip colExpr0.data
    let (valueStr, colName) :=
      if hasAS colExpr then
        let parts := splitAS colExpr
        (strStrip (parts.getD 0 []), strStrip (parts.getD 1 []))
      else (colExpr, colExpr)
    (dictSet acc.1 (String.mk colName) (parseLiteralValue valueStr),
     acc.2 ++ [String.mk colName])) (([] : Row), ([] : List String))
  ([row], cols)

/-- The value-selection chain of `_select_columns` (lines 804-820),
after the alias-in-row shortcut. -/
def selectValue (row : Row) (sourceCol colName : String) :
    Except PyExn Value :=
  if ['+', '-', '*', '/'].any (fun op => sourceCol.data.contains op) then
    evaluateExpression sourceCol row
  else if dictHas row sourceCol then .ok (rowGet row sourceCol)
  else if dictHas row (strLower sourceCol) then .ok (rowGet row (strLower sourceCol))
  else if dictHas row colName then .ok (rowGet row colName)
  else
    let simpleCol :=
      if sourceCol.data.contains '.' then
        String.mk ((splitOnCh '.' sourceCol.data).getLastD [])
      else sourceCol
    .ok (match dictGet? row simpleCol with
         | some v => v
         | none => rowGet row sourceCol)

/-- `QueryExecutor._select_columns` (lines 766-824). -/
def selectColumns (env : CteEnv) (data : List Row) (columns : List String)
    (primaryTable : String) : Except PyExn (List String × List Row) :=
  if columns = ["*"] then
    let allCols :=
      match assocGet? env.columns (strLower primaryTable) with
      | some cs => cs
      | none => (assocGet? TABLE_COLUMNS primaryTable).getD []
    .ok (allCols, data)
  else
    let resultCols := columns.map (fun colExpr =>
      if hasAS colExpr.data then
        String.mk (strStrip ((splitAS colExpr.data).getD 1 []))
      else colExpr)
    do
      let newData ← data.mapM (fun row =>
        (columns.enum).foldlM (fun newRow ic => do
          let colExpr := ic.2
          let colName := resultCols.getD ic.1 ""
          let (sourceCol, aliasOpt) :=
            if hasAS colExpr.data then
              (String.mk (strStrip ((splitAS colExpr.data).getD 0 [])),
               some (String.mk (strStrip ((splitAS colExpr.data).getD 1 []))))
            else (colExpr, none)
          let value ←
            match aliasOpt with
            | some al =>
                if al ≠ "" ∧ dictHas row al then pure (rowGet row al)
                else selectValue row sourceCol colName
            | none => selectValue row sourceCol colName
          pure (dictSet newRow colName value)) ([] : Row))
      pure (resultCols, newData)

/-- The LIMIT stage of `_execute` (lines 403-405):
`if parsed.limit: data = data[:parsed.limit]`.  Python truthiness makes
a parsed `LIMIT 0` skip the slice entirely. -/
def applyLimitStage (limit : Option Nat) (data : List Row) : List Row :=
  match limit with
  | some n => if n ≠ 0 then data.take n else data
  | none => data

/-- `QueryExecutor._execute` (lines 367-410): the fixed relational
pipeline.  Note the `if parsed.limit:` truthiness test — a parsed
`LIMIT 0` applies no truncation. -/
def executePipeline (ds : PyDataset) (env : CteEnv) (parsed : ParsedQuery) :
    Except PyExn (List Row × List String) :=
  match parsed.tables with
  | [] => .ok (executeLiteralSelect parsed)
  | primary :: _ => do
      let data0 := getTableData ds env primary
      let data1 := parsed.joins.foldl (fun d j =>
        applyJoin d (getTableData ds env j.table) j primary j.table) data0
      let data2 :=
        if parsed.whereConditions.isEmpty then data1
        else applyWhere data1 parsed.whereConditions
      let data3 ←
        if !parsed.groupBy.isEmpty then
          applyGroupBy data2 parsed.groupBy parsed.columns
        else if hasAggregates parsed.columns then
          applyAggregateNoGroup data2 parsed.columns
        else pure data2
      let data4 :=
        if parsed.havingConditions.isEmpty then data3
        else applyHaving data3 parsed.havingConditions
      let data5 ←
        if parsed.orderBy.isEmpty then pure data4
        else applyOrderBy data4 parsed.orderBy
      let data6 := applyLimitStage parsed.limit data5
      let res ← selectColumns env data6 parsed.columns primary
      pure (res.2, res.1)

/-! ### Validation (lines 230-300) -/

/-- `QueryExecutor._get_available_columns` (lines 270-280). -/
def getAvailableColumns (env : CteEnv) (tables : List String) : List String :=
  tables.foldl (fun cols table =>
    let tl := strLower table
    match assocGet? env.columns tl with
    | some cs => cols ++ cs
    | none =>
        match assocGet? TABLE_COLUMNS tl with
        | some cs => cols ++ cs
        | none => cols) []

/-- `re.match(r'\w+\(([^)]+)\)', col_expr)` (line 293, anchored). -/
def matchFuncCol (s : Chars) : Option Chars :=
  let (w, r1) := wordRun s
  if w.isEmpty then none
  else
    match r1 with
    | '(' :: r2 =>
        let content := r2.takeWhile (· ≠ ')')
        if content.isEmpty then none
        else
          match r2.drop content.length with
          | ')' :: _ => some content
          | _ => none
    | _ => none

/-- `QueryExecutor._extract_column_name` (lines 282-300). -/
def extractColumnName (colExpr : String) : Option String :=
  let s := colExpr.data
  if s.contains '.' then
    some (String.mk (strStrip ((splitOnCh '.' s).getLastD [])))
  else if hasAS s then
    some (String.mk ((s.dropWhile isSpaceCh).takeWhile (fun c => !isSpaceCh c)))
  else
    match matchFuncCol s with
    | some content =>
        let inner := strStrip content
        if inner = ['*'] then none else some (String.mk inner)
    | none => some (String.mk (strStrip s))

/-- `QueryExecutor._validate` (lines 230-268). -/
def validate (env : CteEnv) (parsed : ParsedQuery) : Except ExecErr Unit := do
  if parsed.queryType ≠ "SELECT" then
    throw (.qerr (.unsupportedFeature (parsed.queryType ++ " queries")
      "Only SELECT queries are supported in this demo"))
  if parsed.tables.isEmpty then
    return ()
  let available := AVAILABLE_TABLES ++ env.tables.map Prod.fst
  for table in parsed.tables do
    if !(available.map strLower).contains (strLower table) then
      throw (.qerr (.unknownTable table available))
  if parsed.columns ≠ ["*"] then
    let availableCols := getAvailableColumns env parsed.tables
    for col in parsed.columns do
      match extractColumnName col with
      | some colName =>
          if colName ≠ "" ∧
              !(availableCols.map strLower).contains (strLower colName) then
            if !isAggregate col then
              throw (.qerr (.unknownColumn colName
                (parsed.tables.getD 0 "") availableCols))
      | none => pure ()
  for cond in parsed.whereConditions do
    if cond.column ≠ "" then
      let availableCols := getAvailableColumns env parsed.tables
      if !(availableCols.map strLower).contains (strLower cond.column) then
        throw (.qerr (.unknownColumn cond.column
          (parsed.tables.getD 0 "") availableCols))
  return ()

/-! ### CTE execution (lines 98-228) -/

/-- `QueryExecutor._execute_simple_cte` (lines 126-153): the CTE body
is parsed (with a `SELECT`-prefix fix-up and a subquery fallback on a
parse exception) and executed; explicit column names rename the
output positionally. -/
def executeSimpleCte (ds : PyDataset) (env : CteEnv) (cte : CTEDef) :
    Except ExecErr (List Row × List String) := do
  let q :=
    if isPrefixList "SELECT".data (strStrip (upStr cte.query.data)) then cte.query
    else "SELECT " ++ cte.query
  let parsed ←
    match parseQueryM q with
    | some p => pure p
    | none =>
        match parseQueryM ("SELECT * FROM (" ++ cte.query ++ ") t") with
        | some p => pure p
        | none => throw (.pyexn (.typeErr "parse failure"))
  let rc ← (executePipeline ds env parsed).mapError ExecErr.pyexn
  let (rows, columns) := rc
  if !cte.columns.isEmpty then
    let renamed := rows.map (fun row =>
      (cte.columns.enum).foldl (fun newRow ic =>
        if ic.1 < columns.length then
          dictSet newRow ic.2 (rowGet row (columns.getD ic.1 ""))
        else newRow) ([] : Row))
    pure (renamed, cte.columns)
  else
    pure (rows, columns)

/-- The positional column mapping of the recursive step
(lines 207-218): the recursive branch's i-th output column is renamed
to the anchor's i-th column name. -/
def mapRowToAnchor (columns newCols : List String) (row : Row) : Row :=
  (columns.enum).foldl (fun mapped ic =>
    if ic.1 < newCols.length then
      let newCol := newCols.getD ic.1 ""
      dictSet mapped ic.2
        (match dictGet? row newCol with
         | some v => v
         | none => rowGet row ic.2)
    else dictSet mapped ic.2 .vnull) ([] : Row)

/-- Parse-and-execute of the recursive member inside the loop's
`try` (lines 197-202): any error (parse or execution) becomes a `break`. -/
def recParseExec (ds : PyDataset) (env : CteEnv) (recQuery : String) :
    Option (List Row × List String) :=
  let q :=
    if isPrefixList "SELECT".data (upStr recQuery.data) then recQuery
    else "SELECT * FROM (" ++ recQuery ++ ") t"
  match parseQueryM q with
  | none => none
  | some parsed =>
      match executePipeline ds env parsed with
      | .ok rc => some rc
      | .error _ => none

/-- The bounded fixpoint loop of `_execute_recursive_cte`
(lines 184-222), with `budget = MAX_RECURSION_DEPTH - iteration` as the
decreasing argument.  Returns the environment, the accumulated rows and
the final value of the source's `iteration` counter (the number of
times the recursive member was executed). -/
def recCteLoop (ds : PyDataset) (name : String) (recQuery : String)
    (columns : List String) :
    Nat → CteEnv → List Row → List Row → Nat → CteEnv × List Row × Nat
  | 0, env, allRows, _, iter => (env, allRows, iter)
  | budget + 1, env, allRows, currentRows, iter =>
      if currentRows.isEmpty then (env, allRows, iter)
      else
        let env1 := envSetTable env name currentRows columns
        match recParseExec ds env1 recQuery with
        | none => (env1, allRows, iter + 1)
        | some (newRows, newCols) =>
            if newRows.isEmpty then (env1, allRows, iter + 1)
            else
              let mapped := newRows.map (mapRowToAnchor columns newCols)
              recCteLoop ds name recQuery columns budget env1
                (allRows ++ mapped) mapped (iter + 1)

/-- `QueryExecutor._execute_recursive_cte` (lines 155-228).  Returns
the updated CTE registry, the rows, the column names and the iteration
count. -/
def executeRecursiveCte (ds : PyDataset) (env : CteEnv) (cte : CTEDef) :
    Except ExecErr (CteEnv × List Row × List String × Nat) := do
  let queryUpper := upStr cte.query.data
  match findSubIdx? "UNION ALL".data queryUpper with
  | none => do
      let rc ← executeSimpleCte ds env cte
      pure (env, rc.1, rc.2, 0)
  | some unionPos => do
      let anchorQuery := String.mk (strStrip (cte.query.data.take unionPos))
      let recQuery := String.mk (strStrip (cte.query.data.drop (unionPos + 9)))
      let anchorQ :=
        if isPrefixList "SELECT".data (upStr anchorQuery.data) then anchorQuery
        else "SELECT * FROM (" ++ anchorQuery ++ ") t"
      let anchorParsed ←
        match parseQueryM anchorQ with
        | some p => pure p
        | none => throw (.pyexn (.typeErr "parse failure"))
      let rc ← (executePipeline ds env anchorParsed).mapError ExecErr.pyexn
      let (anchorRows, columns0) := rc
      if anchorRows.isEmpty then
        pure (env, [], columns0, 0)
      else
        let columns := if !cte.columns.isEmpty then cte.columns else columns0
        let (envL, allRows, iters) :=
          recCteLoop ds cte.name recQuery columns MAX_RECURSION_DEPTH env
            anchorRows anchorRows 0
        pure (envSetTable envL cte.name allRows columns, allRows, columns, iters)

/-- Per-CTE execution metadata (the `cte_info['details']` entries,
lines 117-122). -/
structure CteDetail where
  name : String
  rowCount : Nat
  columns : List String
  isRecursive : Bool
deriving DecidableEq, Repr

/-- The `cte_info` dict (lines 100-105). -/
structure CteInfo where
  count : Nat
  names : List String
  recursive : Bool
  details : List CteDetail
deriving DecidableEq, Repr

/-- `QueryExecutor._execute_ctes` (lines 98-124). -/
def executeCtes (ds : PyDataset) (env0 : CteEnv) (ctes : List CTEDef)
    (isRec : Bool) : Except ExecErr (CteEnv × CteInfo) := do
  let stepped ← ctes.foldlM (fun acc cte => do
    let (env, details) := acc
    let (env1, rows, columns) ←
      if cte.isRecursive then do
        let r ← executeRecursiveCte ds env cte
        pure (r.1, r.2.1, r.2.2.1)
      else do
        let rc ← executeSimpleCte ds env cte
        pure (env, rc.1, rc.2)
    let env2 := envSetTable env1 cte.name rows columns
    pure (env2, details ++ [⟨cte.name, rows.length, columns, cte.isRecursive⟩]))
    ((env0, ([] : List CteDetail)))
  pure (stepped.1,
        { count := ctes.length, names := ctes.map (·.name),
          recursive := isRec, details := stepped.2 })

/-- `QueryResult` (query_executor.py lines 18-27).  The wall-clock
`execution_time_ms` is not modelled. -/
structure QueryResult where
  rows : List Row
  columns : List String
  rowCount : Nat
  query : String
  warnings : List String
  cteInfo : Option CteInfo
deriving DecidableEq, Repr

/-- `QueryExecutor.execute` (lines 53-96): reset the CTE registry,
reject empty input, parse (parse failure → `SyntaxError`), execute the
CTEs, validate, run the pipeline, and package a `QueryResult` whose
`warnings` list is never populated anywhere in the executor. -/
def execute (ds : PyDataset) (query : String) : Except ExecErr QueryResult := do
  let env0 := CteEnv.empty
  if (strStrip query.data).isEmpty then
    throw (.qerr .emptyQuery)
  let parsed ←
    match parseQueryM query with
    | some p => pure p
    | none => throw (.qerr (.syntaxErr "Failed to parse query"))
  let (env1, cteInfo) ←
    if !parsed.ctes.isEmpty then do
      let r ← executeCtes ds env0 parsed.ctes parsed.isRecursive
      pure (r.1, some r.2)
    else pure (env0, none)
  validate env1 parsed
  let rc ← (executePipeline ds env1 parsed).mapError ExecErr.pyexn
  pure { rows := rc.1, columns := rc.2, rowCount := rc.1.length,
         query := query, warnings := [], cteInfo := cteInfo }

/-! ## Access-path estimator (`app/engine/explain.py`) -/

/-- The inner index scan of `_determine_access` (explain.py lines
103-115): the first WHERE condition hitting an indexed column decides
the access type. -/
def accessFromConds (indexes : List (String × (String × List Value))) :
    List Cond → Option (String × Option String)
  | [] => none
  | cond :: rest =>
      let hit := indexes.findSome? (fun idx =>
        let (idxName, idxCol, _) := idx
        if cond.column = idxCol then
          if cond.op = "=" ∧ idxName = "PRIMARY" then
            some ("const", some "PRIMARY")
          else if cond.op = "=" then some ("ref", some idxName)
          else if ["<", ">", "<=", ">=", "BETWEEN"].contains cond.op then
            some ("range", some idxName)
          else none
        else none)
      match hit with
      | some r => some r
      | none => accessFromConds indexes rest

/-- `_determine_access` (explain.py lines 98-122). -/
def determineAccess (q : ParsedQuery)
    (indexes : List (String × (String × List Value))) :
    String × Option String × List String :=
  let possibleKeys := indexes.map Prod.fst
  match accessFromConds indexes q.whereConditions with
  | some (ty, key) => (ty, key, possibleKeys)
  | none =>
      if q.columns ≠ ["*"] ∧
          q.columns.all (fun c => (indexes.map (fun i => i.2.1)).contains c) then
        ("index", (indexes.head?).map Prod.fst, possibleKeys)
      else ("ALL", none, possibleKeys)

/-- `_estimate_rows` (explain.py lines 125-137).  The `range` branch's
`int(total * 0.3)` is exact rational arithmetic here (binary floating
point could differ by one on adversarial sizes; not exercised). -/
def estimateRows (accessType : String) (total : Nat) : Nat :=
  if accessType = "const" then 1
  else if accessType = "eq_ref" ∨ accessType = "ref" then max 1 (total / 10)
  else if accessType = "range" then max 1 ((total * 3) / 10)
  else total

/-- The per-table access/rows computation of `generate_explain`
(explain.py lines 61-72). -/
def explainTableAccessRows (q : ParsedQuery) (tableData : List Row)
    (indexes : List (String × (String × List Value))) : String × Nat :=
  let a := determineAccess q indexes
  (a.1, estimateRows a.1 tableData.length)

/-! ## Concrete fixtures used by the theorems -/

/-- `BTree(order=3)` after `insert(1,10); insert(2,20); insert(3,30)`. -/
def btreeT3 : Option BTreeState :=
  BTree.insertAll 10 (BTree.new 3) [(1, 10), (2, 20), (3, 30)]

/-- A dataset with no tables (the recursive-CTE queries only read the
CTE registry). -/
def emptyDataset : PyDataset := ⟨fun _ => [], []⟩

def queryC4 : String :=
  "WITH RECURSIVE n AS (SELECT 1 AS x UNION ALL SELECT x+1 FROM n WHERE x<10) SELECT * FROM n"

/-- The same recursive CTE without the stopping WHERE: legitimately
infinite, stopped only by the iteration ceiling. -/
def queryC5 : String :=
  "WITH RECURSIVE n AS (SELECT 1 AS x UNION ALL SELECT x+1 FROM n) SELECT * FROM n"

def cteC5 : CTEDef :=
  { name := "n", query := "SELECT 1 AS x UNION ALL SELECT x+1 FROM n",
    isRecursive := true, columns := [] }

/-- Two employees rows: one with a phone string, one with a Null phone. -/
def empRowA : Row :=
  [("id", .vint 1), ("name", .vstr "Alice"), ("department_id", .vint 1),
   ("manager_id", .vint 5), ("salary", .vint 95000),
   ("hire_date", .vstr "2020-03-15"), ("email", .vstr "alice@x.com"),
   ("phone", .vstr "555-0101")]

def empRowB : Row :=
  [("id", .vint 2), ("name", .vstr "Bob"), ("department_id", .vint 1),
   ("manager_id", .vint 5), ("salary", .vint 85000),
   ("hire_date", .vstr "2021-06-01"), ("email", .vstr "bob@x.com"),
   ("phone", .vnull)]

def dsC3 : PyDataset :=
  ⟨fun t => if t = "employees" then [empRowA, empRowB] else [], []⟩

/-- Rows for the ORDER BY claim: a positive, a negative and a Null
value in the sort column. -/
def rowPos : Row := [("id", .vint 1), ("v", .vint 5)]
def rowNeg : Row := [("id", .vint 2), ("v", .vint (-3))]
def rowNull : Row := [("id", .vint 3), ("v", .vnull)]

/-- A concrete parsed query with `LIMIT 0` (what the parser produces for
`SELECT * FROM employees LIMIT 0`). -/
def pqLimit0 : ParsedQuery :=
  { queryType := "SELECT", tables := ["employees"], columns := ["*"],
    whereConditions := [], groupBy := [], havingConditions := [],
    orderBy := [], limit := some 0, joins := [],
    rawQuery := "SELECT * FROM employees LIMIT 0", ctes := [],
    mainQuery := "SELECT * FROM employees LIMIT 0", isRecursive := false,
    tableAliases := [] }

/-- A concrete INNER join dict with no ON clause. -/
def jInner : JoinD := { type := "INNER", table := "b", aliasName := none,
                        onClause := none }

/-! # Helper lemmas

Generic facts about the stable insertion sort, the key comparator, the
parser's totality and the executor, shared by the claim theorems. -/

theorem pyInsertSorted_perm {α : Type} (le : α → α → Bool) (a : α)
    (l : List α) : (pyInsertSorted le a l).Perm (a :: l) := by
  induction l with
  | nil => simp [pyInsertSorted]
  | cons b bs ih =>
      simp only [pyInsertSorted]
      split
      · exact ((ih.cons b).trans (List.Perm.swap a b bs))
      · exact List.Perm.refl _

theorem pySorted_perm_aux {α : Type} (le : α → α → Bool) :
    ∀ (l acc : List α),
      (l.foldl (fun acc x => pyInsertSorted le x acc) acc).Perm (acc ++ l) := by
  intro l
  induction l with
  | nil => intro acc; simp
  | cons x tl ih =>
      intro acc
      rw [List.foldl_cons]
      refine (ih _).trans ?_
      have h1 : (pyInsertSorted le x acc).Perm (x :: acc) :=
        pyInsertSorted_perm le x acc
      exact ((h1.append_right tl).trans List.perm_middle.symm)

theorem pySorted_perm {α : Type} (le : α → α → Bool) (l : List α) :
    (pySorted le l).Perm l := by
  simpa using pySorted_perm_aux le l []

theorem pyInsertSorted_pairwise {α : Type} (le : α → α → Bool)
    (htrans : ∀ a b c, le a b = true → le b c = true → le a c = true)
    (htotal : ∀ a b, (le a b || le b a) = true)
    (a : α) (l : List α) (hl : l.Pairwise (fun x y => le x y = true)) :
    (pyInsertSorted le a l).Pairwise (fun x y => le x y = true) := by
  induction l with
  | nil => simp [pyInsertSorted]
  | cons b bs ih =>
      rcases List.pairwise_cons.mp hl with ⟨hb, hbs⟩
      simp only [pyInsertSorted]
      split
      · next hba =>
          refine List.pairwise_cons.mpr ⟨?_, ih hbs⟩
          intro c hc
          have := (pyInsertSorted_perm le a bs).mem_iff.mp hc
          rcases List.mem_cons.mp this with h | h
          · subst h; exact hba
          · exact hb c h
      · next hba =>
          have hab : le a b = true := by
            have h := htotal a b
            cases hx : le a b
            · rw [hx] at h
              simp at h
              exact absurd h hba
            · rfl
          refine List.pairwise_cons.mpr ⟨?_, hl⟩
          intro c hc
          rcases List.mem_cons.mp hc with h | h
          · subst h; exact hab
          · exact htrans a b c hab (hb c h)

theorem pyInsertSorted_filter_pos {α : Type} (le : α → α → Bool)
    (p : α → Bool)
    (htrans : ∀ a b c, le a b = true → le b c = true → le a c = true)
    (a : α) (hpa : p a = true)
    (hple : ∀ b, p b = true → le b a = true) :
    ∀ (l : List α), l.Pairwise (fun x y => le x y = true) →
      (pyInsertSorted le a l).filter p = l.filter p ++ [a] := by
  intro l
  induction l with
  | nil => simp [pyInsertSorted, hpa]
  | cons b bs ih =>
      intro hl
      rcases List.pairwise_cons.mp hl with ⟨hb, hbs⟩
      simp only [pyInsertSorted]
      split
      · next hba =>
          cases hpb : p b <;> simp [List.filter, hpb, ih hbs]
      · next hba =>
          -- a p-element c of b :: bs would give le c a, while sortedness
          -- gives le b c, hence le b a — contradicting the split guard
          have hnone : ∀ c ∈ b :: bs, p c = false := by
            intro c hc
            cases hpc : p c
            · rfl
            · exfalso
              rcases List.mem_cons.mp hc with h | h
              · subst h; exact hba (hple c hpc)
              · exact hba (htrans b c a (hb c h) (hple c hpc))
          have hfilter : (b :: bs).filter p = [] :=
            List.filter_eq_nil_iff.mpr (by
              intro c hc
              simp [hnone c hc])
          rw [List.filter_cons_of_pos hpa, hfilter]
          rfl

theorem pyInsertSorted_filter_neg {α : Type} (le : α → α → Bool)
    (p : α → Bool) (a : α) (hpa : p a = false) :
    ∀ (l : List α), (pyInsertSorted le a l).filter p = l.filter p := by
  intro l
  induction l with
  | nil => simp [pyInsertSorted, hpa]
  | cons b bs ih =>
      simp only [pyInsertSorted]
      split
      · cases hpb : p b <;> simp [List.filter, hpb, ih]
      · simp [List.filter, hpa]

theorem pySorted_pairwise_aux {α : Type} (le : α → α → Bool)
    (htrans : ∀ a b c, le a b = true → le b c = true → le a c = true)
    (htotal : ∀ a b, (le a b || le b a) = true) :
    ∀ (l acc : List α), acc.Pairwise (fun x y => le x y = true) →
      (l.foldl (fun acc x => pyInsertSorted le x acc) acc).Pairwise
        (fun x y => le x y = true) := by
  intro l
  induction l with
  | nil => intro acc h; simpa using h
  | cons x tl ih =>
      intro acc h
      rw [List.foldl_cons]
      exact ih _ (pyInsertSorted_pairwise le htrans htotal x acc h)

theorem pySorted_pairwise {α : Type} (le : α → α → Bool)
    (htrans : ∀ a b c, le a b = true → le b c = true → le a c = true)
    (htotal : ∀ a b, (le a b || le b a) = true) (l : List α) :
    (pySorted le l).Pairwise (fun x y => le x y = true) :=
  pySorted_pairwise_aux le htrans htotal l [] List.Pairwise.nil

theorem pySorted_filter_aux {α : Type} (le : α → α → Bool) (p : α → Bool)
    (htrans : ∀ a b c, le a b = true → le b c = true → le a c = true)
    (htotal : ∀ a b, (le a b || le b a) = true)
    (hple : ∀ a b, p a = true → p b = true → le a b = true) :
    ∀ (l acc : List α), acc.Pairwise (fun x y => le x y = true) →
      (l.foldl (fun acc x => pyInsertSorted le x acc) acc).filter p
        = acc.filter p ++ l.filter p := by
  intro l
  induction l with
  | nil => intro acc h; simp
  | cons x tl ih =>
      intro acc h
      rw [List.foldl_cons,
          ih _ (pyInsertSorted_pairwise le htrans htotal x acc h)]
      cases hpx : p x
      · rw [pyInsertSorted_filter_neg le p x hpx acc,
            List.filter_cons_of_neg (by simp [hpx])]
      · rw [pyInsertSorted_filter_pos le p htrans x hpx
              (fun b hpb => hple b x hpb hpx) acc h,
            List.filter_cons_of_pos hpx]
        simp

theorem pySorted_filter_stable {α : Type} (le : α → α → Bool) (p : α → Bool)
    (htrans : ∀ a b c, le a b = true → le b c = true → le a c = true)
    (htotal : ∀ a b, (le a b || le b a) = true)
    (hple : ∀ a b, p a = true → p b = true → le a b = true) (l : List α) :
    (pySorted le l).filter p = l.filter p := by
  simpa using pySorted_filter_aux le p htrans htotal hple l [] List.Pairwise.nil

theorem valLeB_total (a b : Value) : valLeB a b || valLeB b a := by
  cases a <;> cases b <;> simp [valLeB, valRank] <;> exact le_total _ _

theorem valLeB_trans {a b c : Value} (h1 : valLeB a b) (h2 : valLeB b c) :
    valLeB a c := by
  cases a <;> cases b <;> cases c <;>
    simp_all [valLeB, valRank] <;>
    first
      | exact le_trans h1 h2
      | exact le_trans (by exact_mod_cast h1) h2
      | exact le_trans h1 (by exact_mod_cast h2)
      | exact_mod_cast le_trans h1 h2

theorem valLeB_refl (a : Value) : valLeB a a := by
  cases a <;> simp [valLeB]

theorem keyLeB_total (k1 k2 : List Value) : keyLeB k1 k2 || keyLeB k2 k1 := by
  induction k1 generalizing k2 with
  | nil => cases k2 <;> simp [keyLeB]
  | cons a as ih =>
      cases k2 with
      | nil => simp [keyLeB]
      | cons b bs =>
          simp only [keyLeB]
          by_cases hab : valLeB a b = true <;> by_cases hba : valLeB b a = true <;>
            simp [hab, hba]
          · simpa using ih bs
          · have := valLeB_total a b
            simp_all

theorem keyLeB_self (k : List Value) : keyLeB k k := by
  induction k with
  | nil => simp [keyLeB]
  | cons a as ih => simp [keyLeB, valLeB_refl, ih]

theorem keyLeB_trans {k1 k2 k3 : List Value} (h1 : keyLeB k1 k2)
    (h2 : keyLeB k2 k3) : keyLeB k1 k3 := by
  induction k1 generalizing k2 k3 with
  | nil => simp [keyLeB]
  | cons a as ih =>
      cases k2 with
      | nil => simp [keyLeB] at h1
      | cons b bs =>
          cases k3 with
          | nil => simp [keyLeB] at h2
          | cons c cs =>
              simp only [keyLeB] at h1 h2 ⊢
              cases hab : valLeB a b <;> cases hba : valLeB b a <;>
                cases hbc : valLeB b c <;> cases hcb : valLeB c b <;>
                (try simp [hab, hba, hbc, hcb] at h1 h2 ⊢) <;>
                first
                  | (have htt := valLeB_total a b; simp_all; done)
                  | (have htt := valLeB_total b c; simp_all; done)
                  | (have hac : valLeB a c = true := valLeB_trans hab hbc
                     have hca : valLeB c a = false := by
                       cases h : valLeB c a
                       · rfl
                       · have := valLeB_trans h hab
                         simp_all
                     simp [hac, hca]
                     done)
                  | (have hac : valLeB a c = true := valLeB_trans hab hbc
                     have hca : valLeB c a = false := by
                       cases h : valLeB c a
                       · rfl
                       · have := valLeB_trans hbc h
                         simp_all
                     simp [hac, hca]
                     done)
                  | (have hac : valLeB a c = true := valLeB_trans hab hbc
                     have hca : valLeB c a = true := valLeB_trans hcb hba
                     simp [hac, hca]
                     exact ih h1 h2)

theorem pyEq_symm (a b : Value) : pyEq a b = pyEq b a := by
  cases a <;> cases b <;> simp [pyEq, eq_comm]

theorem valLeB_of_pyEq {a b : Value} (h : pyEq a b = true) :
    valLeB a b = true ∧ valLeB b a = true := by
  cases a <;> cases b <;> simp_all [pyEq, valLeB, valRank] <;> omega

theorem valLeB_of_pyLt_true {a b : Value} (h : pyLt? a b = some true) :
    valLeB a b = true ∧ valLeB b a = false := by
  cases a <;> cases b <;> simp_all [pyLt?, valLeB] <;>
    first
      | omega
      | exact le_of_lt h
      | exact ⟨le_of_lt h, not_le.mpr h⟩
      | (constructor <;> first | exact le_of_lt h | exact not_le.mpr h)

theorem valLeB_of_pyLt_false {a b : Value} (h : pyLt? a b = some false)
    (hne : pyEq a b = false) : valLeB b a = true ∧ valLeB a b = false := by
  cases a <;> cases b <;> simp_all [pyLt?, pyEq, valLeB] <;>
    first
      | omega
      | (have hlt := lt_of_le_of_ne h (fun he => hne he.symm)
         exact ⟨le_of_lt hlt, not_le.mpr hlt⟩)
      | (have hlt := lt_of_le_of_ne h (fun he => hne he.symm)
         constructor
         · exact le_of_lt hlt
         · exact not_le.mpr hlt)
      | (have hlt := lt_of_le_of_ne h (fun he => hne he.symm)
         first
           | exact hlt
           | exact ⟨h, not_le.mpr hlt⟩
           | exact not_le.mpr hlt)
      | (have hlt := lt_of_le_of_ne h (fun he => hne (String.ext he.symm))
         first
           | exact hlt
           | exact ⟨le_of_lt hlt, not_le.mpr hlt⟩
           | exact ⟨h, not_le.mpr hlt⟩
           | exact not_le.mpr hlt)

/-- On the comparable domain, the totalised `keyLeB` is exactly
Python's tuple ordering: `k1 <= k2` iff not `k2 < k1`. -/
theorem keyLeB_iff_not_keyLt :
    ∀ (k1 k2 : List Value), (keyLt? k2 k1).isSome →
      (keyLeB k1 k2 = true ↔ keyLt? k2 k1 ≠ some true)
  | [], [] => by simp [keyLeB, keyLt?]
  | [], _ :: _ => by simp [keyLeB, keyLt?]
  | _ :: _, [] => by simp [keyLeB, keyLt?]
  | a :: as', b :: bs => by
      intro hsome
      simp only [keyLt?] at hsome ⊢
      by_cases he : pyEq b a = true
      · have he' : pyEq a b = true := by rw [pyEq_symm]; exact he
        obtain ⟨h1, h2⟩ := valLeB_of_pyEq he'
        rw [if_pos he] at hsome ⊢
        simp only [keyLeB, h1, h2, Bool.not_true, Bool.and_false, if_false]
        exact keyLeB_iff_not_keyLt as' bs hsome
      · rw [if_neg he] at hsome ⊢
        cases hlt : pyLt? b a with
        | none => rw [hlt] at hsome; simp at hsome
        | some bb =>
            cases bb
            · obtain ⟨h1, h2⟩ :=
                valLeB_of_pyLt_false hlt (Bool.eq_false_iff.mpr he)
              simp [keyLeB, h1, h2, hlt]
            · obtain ⟨h1, h2⟩ := valLeB_of_pyLt_true hlt
              simp [keyLeB, h1, h2, hlt]

theorem pyEq_vstr_iff (v : Value) (s : String) :
    pyEq v (.vstr s) = true ↔ v = .vstr s := by
  cases v <;> simp [pyEq]

theorem pyEq_vstr_false {v : Value} {s : String} (hne : v ≠ .vstr s) :
    pyEq v (.vstr s) = false := by
  cases hpe : pyEq v (.vstr s)
  · rfl
  · exact absurd ((pyEq_vstr_iff v s).mp hpe) hne

theorem scanLimitDigits_shape {prev : Option Char} {s ds : Chars}
    (h : scanLimitDigits prev s = some ds) :
    ds ≠ [] ∧ ∀ c ∈ ds, isDigitCh c := by
  induction s generalizing prev with
  | nil => simp [scanLimitDigits] at h
  | cons c tl ih =>
      rw [scanLimitDigits] at h
      dsimp only at h
      split at h
      · next res hres =>
          injection h with h'
          subst h'
          repeat' split at hres
          all_goals try (exfalso; exact Option.noConfusion hres)
          injection hres with h2
          subst h2
          constructor
          · simp_all [digitRun, List.isEmpty_iff]
          · intro x hx
            simp only [digitRun] at hx
            exact List.mem_takeWhile_imp hx
      · exact ih h

theorem digitsToNat?_isSome {ds : Chars} (hne : ds ≠ [])
    (hdig : ∀ c ∈ ds, isDigitCh c) : (digitsToNat? ds).isSome := by
  unfold digitsToNat?
  rw [if_neg (by simpa using hne), if_pos (by simpa [List.all_eq_true] using hdig)]
  rfl

theorem extractLimit_isSome (s : Chars) : (extractLimit s).isSome := by
  unfold extractLimit
  cases h : scanLimitDigits none s with
  | none => rfl
  | some ds =>
      obtain ⟨hne, hdig⟩ := scanLimitDigits_shape h
      have := digitsToNat?_isSome hne hdig
      cases hd : digitsToNat? ds with
      | none => rw [hd] at this; simp at this
      | some n => simp [hd]

theorem parseQueryM_isSome (s : String) : (parseQueryM s).isSome := by
  unfold parseQueryM
  dsimp only
  split
  · next heq =>
      exact absurd heq (Option.ne_none_iff_isSome.mpr (extractLimit_isSome _))
  · rfl

theorem enumFrom_filter_map {α β : Type} (p : α → Bool) (f : α → β) :
    ∀ (l : List α) (n : Nat),
      ((List.enumFrom n l).filter (fun ia => p ia.2)).map (fun ia => f ia.2)
        = (l.filter p).map f := by
  intro l
  induction l with
  | nil => intro n; rfl
  | cons a tl ih =>
      intro n
      simp only [List.enumFrom, List.filter]
      cases hp : p a <;> simp [hp, ih (n + 1)]

theorem applyJoin_inner (l r : List Row) (j : JoinD) (lt rt : String)
    (hj : j.type = "INNER") :
    applyJoin l r j lt rt =
      l.flatMap (fun lr =>
        (r.filter (fun rr =>
          pyEq (rowGet lr (parseJoinOn j.onClause lt rt).1)
               (rowGet rr (parseJoinOn j.onClause lt rt).2))).map
          (fun rr => joinCombine lt rt lr rr)) := by
  unfold applyJoin
  rw [hj]
  rcases hpc : parseJoinOn j.onClause lt rt with ⟨c1, c2⟩
  simp only [if_neg (by simp : ¬("INNER" = "RIGHT" ∨ "INNER" = "RIGHT OUTER"))]
  suffices H : ∀ (ll : List Row) (acc : List Row × List Nat),
      (ll.foldl (fun acc lRow =>
        let lVal := rowGet lRow c1
        let hits := r.enum.filter (fun ir => pyEq lVal (rowGet ir.2 c2))
        let newRows := hits.map (fun ir => joinCombine lt rt lRow ir.2)
        let acc1 := (acc.1 ++ newRows, acc.2 ++ hits.map (·.1))
        if hits.isEmpty ∧ ("INNER" = "LEFT" ∨ "INNER" = "LEFT OUTER") then
          let nullRight : Row :=
            match r with
            | r0 :: _ => prefixRow rt (r0.map (fun kv => (kv.1, Value.vnull)))
            | [] => []
          let combined := dictUpdate (dictUpdate (prefixRow lt lRow) nullRight) lRow
          (acc1.1 ++ [combined], acc1.2)
        else acc1) acc).1
      = acc.1 ++ ll.flatMap (fun lr =>
          (r.filter (fun rr => pyEq (rowGet lr c1) (rowGet rr c2))).map
            (fun rr => joinCombine lt rt lr rr)) by
    simpa using H l ([], [])
  intro ll
  induction ll with
  | nil => intro acc; simp
  | cons a tl ih =>
      intro acc
      rw [List.foldl_cons, ih]
      simp only [if_neg
        (by simp : ¬(True ∧ ("INNER" = "LEFT" ∨ "INNER" = "LEFT OUTER")))]
      rw [List.flatMap_cons]
      rw [show List.enum r = List.enumFrom 0 r from rfl,
          enumFrom_filter_map (fun rr => pyEq (rowGet a c1) (rowGet rr c2))
            (fun rr => joinCombine lt rt a rr) r 0]
      simp [List.append_assoc]

theorem execute_warnings_empty (ds : PyDataset) (q : String) (r : QueryResult)
    (h : execute ds q = .ok r) : r.warnings = [] := by
  unfold execute at h
  simp only [bind, Except.bind, pure, Except.pure] at h
  repeat' split at h
  all_goals
    first
      | exact Except.noConfusion h
      | (injection h with h'
         subst h'
         rfl)

theorem execute_warnings_option (ds : PyDataset) (q : String) :
    ((execute ds q).toOption.map QueryResult.warnings).getD [] = [] := by
  cases h : execute ds q with
  | error e => rfl
  | ok r => simp [Except.toOption, execute_warnings_empty ds q r h]

theorem recCteLoop_iter_le (ds : PyDataset) (name recQuery : String)
    (cols : List String) :
    ∀ (budget : Nat) (env : CteEnv) (allRows currentRows : List Row)
      (iter : Nat),
      (recCteLoop ds name recQuery cols budget env allRows currentRows
        iter).2.2 ≤ iter + budget := by
  intro budget
  induction budget with
  | zero =>
      intro env allRows currentRows iter
      simp [recCteLoop]
  | succ b ih =>
      intro env allRows currentRows iter
      rw [recCteLoop]
      dsimp only
      split
      · show iter ≤ iter + (b + 1)
        omega
      · split
        · show iter + 1 ≤ iter + (b + 1)
          omega
        · split
          · show iter + 1 ≤ iter + (b + 1)
            omega
          · exact le_trans (ih _ _ _ (iter + 1)) (by omega)

/-! # Claim theorems -/

/-- C1: the search contract fails on a split tree.  After inserting
(1,10), (2,20), (3,30) into a BTree of order 3, `search(2)` returns the
key `2` itself instead of the inserted value `20` (the value sits
stranded in the left leaf after the split); `search(1)` and `search(3)`
still return their values, and `search(5)` ends in a `not_found` step
with a `None` value. -/
theorem btree_search_midkey_returns_key :
    (btreeT3.bind (fun t => BTree.search 10 t.root 2 [])).map Prod.fst
      = some (some 2)
    ∧ (btreeT3.bind (fun t => BTree.search 10 t.root 1 [])).map Prod.fst
      = some (some 10)
    ∧ (btreeT3.bind (fun t => BTree.search 10 t.root 3 [])).map Prod.fst
      = some (some 30)
    ∧ (btreeT3.bind (fun t => BTree.search 10 t.root 5 [])).map
        (fun p => (p.1, p.2.getLast?.map TStep.action))
      = some (none, some "not_found") := by
  decide

/-- C2: the node-shape invariant fails after a split.  In the tree built
by inserting (1,10), (2,20), (3,30) into a BTree of order 3, the first
leaf holds 1 key but 2 values (`_split_child` trims a leaf's keys to
`keys[:mid]` but its values to `values[:mid+1]`), so leaves do not hold
exactly one value per key.  The tuples listed are
(is_leaf, len(keys), len(values), len(children)) for the root, the left
leaf and the right leaf. -/
theorem btree_leaf_values_exceed_keys :
    btreeT3.map (fun t => (collectNodes 10 t.root).map (fun n =>
        (n.isLeaf, n.keys.length, n.vals.length, n.children.length)))
      = some [(false, 1, 0, 2), (true, 1, 2, 0), (true, 1, 1, 0)] := by
  decide

/-- C3 counterexample: on a 2-row employees table with one Null phone,
`WHERE phone <> NULL` returns 1 row, not the zero rows the claim
states. -/
theorem where_neq_null_returns_rows :
    (dsC3.getTable "employees").length = 2 ∧
    ((execute dsC3 "SELECT * FROM employees WHERE phone <> NULL").toOption.map
        QueryResult.rowCount) = some 1 := by
  decide

/-- C3 (amended): the parser reads the literal word `NULL` as the
string "NULL", so `phone = NULL` matches rows whose phone equals the
string "NULL" (no row in practice, hence zero rows), `phone <> NULL`
matches every row whose phone is non-Null and differs from the string
"NULL" (so it returns rows rather than none), and `phone IS NULL`
returns exactly the rows with a Null phone. -/
theorem null_literal_where_semantics (data : List Row)
    (h : ∀ r ∈ data, rowGet r "phone" ≠ .vstr "NULL") :
    extractWhere "SELECT * FROM employees WHERE phone = NULL".data
        = [⟨"phone", "=", .scalar (.vstr "NULL")⟩] ∧
    extractWhere "SELECT * FROM employees WHERE phone <> NULL".data
        = [⟨"phone", "<>", .scalar (.vstr "NULL")⟩] ∧
    extractWhere "SELECT * FROM employees WHERE phone IS NULL".data
        = [⟨"phone", "IS NULL", .nonev⟩] ∧
    applyWhere data [⟨"phone", "=", .scalar (.vstr "NULL")⟩] = [] ∧
    applyWhere data [⟨"phone", "<>", .scalar (.vstr "NULL")⟩]
        = data.filter (fun r => decide (rowGet r "phone" ≠ .vnull)) ∧
    applyWhere data [⟨"phone", "IS NULL", .nonev⟩]
        = data.filter (fun r => decide (rowGet r "phone" = .vnull)) := by
  refine ⟨by decide, by decide, by decide, ?_, ?_, ?_⟩
  · unfold applyWhere
    rw [List.filter_eq_nil_iff]
    intro r hr
    have hr' := h r hr
    simp only [rowMatchesConditions]
    simp only [show (("=" : String) = "IS NULL") = False from by simp,
               show (("=" : String) = "IS NOT NULL") = False from by simp]
    simp only [if_false]
    by_cases hv : rowGet r "phone" = Value.vnull
    · simp [hv]
    · simp only [if_neg hv]
      simp [pyCompare, pyEq_vstr_false hr', hv]
  · unfold applyWhere
    apply List.filter_congr
    intro r hr
    have hr' := h r hr
    simp only [rowMatchesConditions]
    simp only [show (("<>" : String) = "IS NULL") = False from by simp,
               show (("<>" : String) = "IS NOT NULL") = False from by simp,
               show (("<>" : String) = "=") = False from by simp]
    simp only [if_false]
    by_cases hv : rowGet r "phone" = Value.vnull
    · simp [hv]
    · simp only [if_neg hv]
      simp [pyCompare, pyEq_vstr_false hr', hv]
  · unfold applyWhere
    apply List.filter_congr
    intro r hr
    simp only [rowMatchesConditions]
    by_cases hv : rowGet r "phone" = Value.vnull
    · simp [hv, rowMatchesConditions]
    · simp [hv, rowMatchesConditions]

/-- Witness for C3 on the concrete two-row table. -/
theorem null_literal_where_semantics_witness :
    (∀ r ∈ [empRowA, empRowB], rowGet r "phone" ≠ Value.vstr "NULL") ∧
    applyWhere [empRowA, empRowB]
        [⟨"phone", "=", CondVal.scalar (Value.vstr "NULL")⟩] = [] ∧
    applyWhere [empRowA, empRowB]
        [⟨"phone", "<>", CondVal.scalar (Value.vstr "NULL")⟩] = [empRowA] ∧
    applyWhere [empRowA, empRowB] [⟨"phone", "IS NULL", CondVal.nonev⟩]
      = [empRowB] := by
  have h := null_literal_where_semantics [empRowA, empRowB] (by decide)
  refine ⟨by decide, h.2.2.2.1, ?_, ?_⟩
  · rw [h.2.2.2.2.1]
    decide
  · rw [h.2.2.2.2.2]
    decide

/-- C4: the recursive CTE
`WITH RECURSIVE n AS (SELECT 1 AS x UNION ALL SELECT x+1 FROM n WHERE x<10) SELECT * FROM n`
terminates and yields exactly the ten rows x = 1..10 in generation
order, with column list ["x"] and row count 10. -/
theorem recursive_cte_yields_one_to_ten :
    ((execute emptyDataset queryC4).toOption.map
        (fun res => (res.rows, res.columns, res.rowCount)))
      = some ([[("x", Value.vint 1)], [("x", Value.vint 2)],
               [("x", Value.vint 3)], [("x", Value.vint 4)],
               [("x", Value.vint 5)], [("x", Value.vint 6)],
               [("x", Value.vint 7)], [("x", Value.vint 8)],
               [("x", Value.vint 9)], [("x", Value.vint 10)]], ["x"], 10) := by
  set_option maxRecDepth 10000 in decide

/-- C5 counterexample: a non-terminating recursive CTE is stopped at
exactly the 100-iteration ceiling, yet the returned QueryResult carries
no warning at all (`warnings = []`), contradicting the claimed
truncation warning. -/
theorem recursion_ceiling_no_warning :
    ((executeRecursiveCte emptyDataset CteEnv.empty cteC5).toOption.map
        (fun res => res.2.2.2)) = some MAX_RECURSION_DEPTH ∧
    ((execute emptyDataset queryC5).toOption.map QueryResult.warnings)
      = some [] := by
  decide

/-- C5 (amended): recursive-CTE evaluation is capped at
`MAX_RECURSION_DEPTH = 100` iterations of the recursive member on every
execution (the loop counter can never exceed the budget), and the
ceiling is enforced silently: `execute` returns `warnings = []` on every
query, including the capped run, which stops at iteration 100 with 101
accumulated rows and no warning. -/
theorem recursion_ceiling_enforced_silently :
    (∀ (ds : PyDataset) (name recQuery : String) (cols : List String)
        (env : CteEnv) (allRows currentRows : List Row),
      (recCteLoop ds name recQuery cols MAX_RECURSION_DEPTH env allRows
        currentRows 0).2.2 ≤ MAX_RECURSION_DEPTH) ∧
    (∀ (ds : PyDataset) (q : String),
      ((execute ds q).toOption.map QueryResult.warnings).getD [] = []) ∧
    MAX_RECURSION_DEPTH = 100 ∧
    ((executeRecursiveCte emptyDataset CteEnv.empty cteC5).toOption.map
        (fun res => (res.2.1.length, res.2.2.2))) = some (101, 100) := by
  refine ⟨?_, execute_warnings_option, rfl, by decide⟩
  intro ds name recQuery cols env allRows currentRows
  simpa using
    recCteLoop_iter_le ds name recQuery cols MAX_RECURSION_DEPTH env
      allRows currentRows 0

/-- C6: on a 1000-row table with a PRIMARY index on id, explain of
`SELECT * FROM t WHERE id = 5` reports access type `const` with 1
estimated row; the same query filtering the unindexed column salary
reports `ALL` with 1000 estimated rows. -/
theorem explain_const_vs_full_scan (tableData : List Row) (vals : List Value)
    (h : tableData.length = 1000) :
    ((parseQueryM "SELECT * FROM t WHERE id = 5").map (fun pq =>
        explainTableAccessRows pq tableData [("PRIMARY", ("id", vals))]))
      = some ("const", 1)
    ∧ ((parseQueryM "SELECT * FROM t WHERE salary = 5").map (fun pq =>
        explainTableAccessRows pq tableData [("PRIMARY", ("id", vals))]))
      = some ("ALL", 1000) := by
  rw [show parseQueryM "SELECT * FROM t WHERE id = 5"
      = some { queryType := "SELECT", tables := ["t"], columns := ["*"],
               whereConditions := [⟨"id", "=", .scalar (.vint 5)⟩],
               groupBy := [], havingConditions := [], orderBy := [],
               limit := none, joins := [],
               rawQuery := "SELECT * FROM t WHERE id = 5", ctes := [],
               mainQuery := "SELECT * FROM t WHERE id = 5",
               isRecursive := false, tableAliases := [] } from by decide]
  rw [show parseQueryM "SELECT * FROM t WHERE salary = 5"
      = some { queryType := "SELECT", tables := ["t"], columns := ["*"],
               whereConditions := [⟨"salary", "=", .scalar (.vint 5)⟩],
               groupBy := [], havingConditions := [], orderBy := [],
               limit := none, joins := [],
               rawQuery := "SELECT * FROM t WHERE salary = 5", ctes := [],
               mainQuery := "SELECT * FROM t WHERE salary = 5",
               isRecursive := false, tableAliases := [] } from by decide]
  simp [explainTableAccessRows, determineAccess, accessFromConds,
        estimateRows, h, List.findSome?]

/-- Witness for C6 with a concrete 1000-row table. -/
theorem explain_const_vs_full_scan_witness :
    (List.replicate 1000 ([] : Row)).length = 1000 ∧
    ((parseQueryM "SELECT * FROM t WHERE id = 5").map (fun pq =>
        explainTableAccessRows pq (List.replicate 1000 ([] : Row))
          [("PRIMARY", ("id", []))])) = some ("const", 1) :=
  ⟨by rw [List.length_replicate],
   (explain_const_vs_full_scan (List.replicate 1000 ([] : Row)) []
      (by rw [List.length_replicate])).1⟩

/-- C7 counterexample: sorting rows with v = 5, Null, -3 by `v ASC`
places the Null row second (after -3), not first; sorting `v DESC`
places it second as well, not last.  Null sorts as the value 0, not
first/last. -/
theorem order_by_null_not_first :
    (applyOrderBy [rowPos, rowNull, rowNeg] [("v", "ASC")]).toOption
        = some [rowNeg, rowNull, rowPos]
    ∧ ((applyOrderBy [rowPos, rowNull, rowNeg] [("v", "ASC")]).toOption.bind
          List.head?) ≠ some rowNull
    ∧ (applyOrderBy [rowPos, rowNull, rowNeg] [("v", "DESC")]).toOption
        = some [rowPos, rowNull, rowNeg]
    ∧ ((applyOrderBy [rowPos, rowNull, rowNeg] [("v", "DESC")]).toOption.bind
          List.getLast?) ≠ some rowNull := by
  decide

/-- C7 (amended): when every pair of computed sort keys is comparable
in Python's sense, ORDER BY succeeds and performs a stable sort (the
output is a permutation of the input, adjacent-in-order rows never
violate Python's tuple ordering `not (k2 < k1)`, and rows with equal
keys keep their relative order); a Null sort-column value is replaced
by 0 in the key, so Null rows sort as the value 0 rather than first
(ASC) or last (DESC).  When two keys are incomparable — as for
`ORDER BY phone` over a table mixing strings and Nulls (the Null key
becomes the number 0) — the underlying `sorted` call raises an
uncaught `TypeError` instead of sorting. -/
theorem order_by_stable_sort_null_as_zero (data : List Row)
    (ob : List (String × String)) (k : List Value) (r : Row)
    (col dir : String) (hnull : dictGet? r col = some Value.vnull)
    (hcomp : ∀ r1 ∈ data, ∀ r2 ∈ data,
      (keyLt? (sortKey ob r1) (sortKey ob r2)).isSome) :
    (∃ out : List Row,
      applyOrderBy data ob = .ok out ∧
      out.Perm data ∧
      List.Pairwise (fun r1 r2 =>
        keyLt? (sortKey ob r2) (sortKey ob r1) ≠ some true) out ∧
      out.filter (fun row => decide (sortKey ob row = k))
        = data.filter (fun row => decide (sortKey ob row = k))) ∧
    applyOrderBy [empRowA, empRowB] [("phone", "ASC")]
      = .error (.typeErr "unorderable types in ORDER BY key") ∧
    sortKey [(col, dir)] r = [Value.vint 0] := by
  have htrans : ∀ r1 r2 r3 : Row,
      keyLeB (sortKey ob r1) (sortKey ob r2) = true →
      keyLeB (sortKey ob r2) (sortKey ob r3) = true →
      keyLeB (sortKey ob r1) (sortKey ob r3) = true :=
    fun _ _ _ h1 h2 => keyLeB_trans h1 h2
  have htotal : ∀ r1 r2 : Row,
      (keyLeB (sortKey ob r1) (sortKey ob r2)
        || keyLeB (sortKey ob r2) (sortKey ob r1)) = true :=
    fun _ _ => keyLeB_total _ _
  have hkey : sortKey [(col, dir)] r = [Value.vint 0] := by
    by_cases hd : dir = "DESC"
    · simp [sortKey, hnull, hd]
    · simp [sortKey, hnull, hd]
  refine ⟨?_, by rfl, hkey⟩
  by_cases hob : ob.isEmpty = true
  · have hob' : ob = [] := List.isEmpty_iff.mp hob
    subst hob'
    refine ⟨data, rfl, List.Perm.refl _, ?_, rfl⟩
    exact List.pairwise_of_forall (fun _ _ => by simp [sortKey, keyLt?])
  · have hguard : ((data.map (sortKey ob)).all (fun k1 =>
        (data.map (sortKey ob)).all (fun k2 => (keyLt? k1 k2).isSome)))
          = true := by
      simp only [List.all_eq_true]
      intro k1 hk1 k2 hk2
      obtain ⟨r1, hr1, rfl⟩ := List.mem_map.mp hk1
      obtain ⟨r2, hr2, rfl⟩ := List.mem_map.mp hk2
      exact hcomp r1 hr1 r2 hr2
    have heq : applyOrderBy data ob = .ok (pySorted (fun r1 r2 =>
        keyLeB (sortKey ob r1) (sortKey ob r2)) data) := by
      unfold applyOrderBy
      rw [if_neg hob, if_pos hguard]
    have hperm := pySorted_perm
      (fun r1 r2 => keyLeB (sortKey ob r1) (sortKey ob r2)) data
    refine ⟨_, heq, hperm, ?_, ?_⟩
    · have hpw := pySorted_pairwise
        (fun r1 r2 => keyLeB (sortKey ob r1) (sortKey ob r2))
        htrans htotal data
      refine List.Pairwise.imp_of_mem (fun hm1 hm2 hle => ?_) hpw
      next r1 r2 =>
        have hc := hcomp r2 (hperm.mem_iff.mp hm2) r1 (hperm.mem_iff.mp hm1)
        exact (keyLeB_iff_not_keyLt (sortKey ob r1) (sortKey ob r2) hc).mp hle
    · exact pySorted_filter_stable _ _ htrans htotal
        (fun a b ha hb => by
          simp only [decide_eq_true_eq] at ha hb
          rw [ha, hb]
          exact keyLeB_self k) data

/-- Witness for C7 on a concrete two-row sort with a Null key. -/
theorem order_by_stable_sort_null_as_zero_witness :
    dictGet? rowNull "v" = some Value.vnull ∧
    (∀ r1 ∈ [rowPos, rowNull], ∀ r2 ∈ [rowPos, rowNull],
      (keyLt? (sortKey [("v", "ASC")] r1)
              (sortKey [("v", "ASC")] r2)).isSome) ∧
    (∃ out : List Row,
      applyOrderBy [rowPos, rowNull] [("v", "ASC")] = .ok out ∧
      out.Perm [rowPos, rowNull]) ∧
    sortKey [("v", "ASC")] rowNull = [Value.vint 0] := by
  have h := order_by_stable_sort_null_as_zero [rowPos, rowNull] [("v", "ASC")]
    [] rowNull "v" "ASC" (by decide) (by decide)
  obtain ⟨⟨out, hok, hperm, _, _⟩, _, hkey⟩ := h
  exact ⟨by decide, by decide, ⟨out, hok, hperm⟩, hkey⟩

/-- C8: `parse_query` is total (and, as a pure function of the input
string, free of side effects): it returns a ParsedQuery for every input,
and on the unrecognizable input "COMPLETELY UNPARSEABLE !!" it degrades
to a record with query type "UNKNOWN", an empty tables list and the
default column list instead of failing. -/
theorem parse_query_total_and_degrades :
    (∀ s : String, (parseQueryM s).isSome) ∧
    parseQueryM "COMPLETELY UNPARSEABLE !!"
      = some { queryType := "UNKNOWN", tables := [], columns := ["*"],
               whereConditions := [], groupBy := [], havingConditions := [],
               orderBy := [], limit := none, joins := [],
               rawQuery := "COMPLETELY UNPARSEABLE !!", ctes := [],
               mainQuery := "COMPLETELY UNPARSEABLE !!",
               isRecursive := false, tableAliases := [] } :=
  ⟨parseQueryM_isSome, by decide⟩

/-- C9: a parsed LIMIT of exactly 0 is falsy in Python, so the limit
stage leaves the data untouched (the pipeline behaves as if there were
no LIMIT), while any LIMIT n with n ≥ 1 truncates to the first n
rows. -/
theorem limit_zero_no_truncation (ds : PyDataset) (env : CteEnv)
    (p : ParsedQuery) (data : List Row) (n : Nat) (h0 : p.limit = some 0)
    (hn : 1 ≤ n) :
    executePipeline ds env p
        = executePipeline ds env { p with limit := none } ∧
    applyLimitStage (some 0) data = data ∧
    applyLimitStage (some n) data = data.take n := by
  refine ⟨?_, rfl, ?_⟩
  · unfold executePipeline
    cases hpt : p.tables with
    | nil => rfl
    | cons t ts => simp [h0, applyLimitStage]
  · show (if n ≠ 0 then data.take n else data) = data.take n
    rw [if_pos (by omega : n ≠ 0)]

/-- Witness for C9 on the concrete LIMIT 0 query. -/
theorem limit_zero_no_truncation_witness :
    pqLimit0.limit = some 0 ∧
    executePipeline emptyDataset CteEnv.empty pqLimit0
        = executePipeline emptyDataset CteEnv.empty
            { pqLimit0 with limit := none } ∧
    applyLimitStage (some 0) [rowPos, rowNeg] = [rowPos, rowNeg] ∧
    applyLimitStage (some 1) [rowPos, rowNeg]
        = ([rowPos, rowNeg] : List Row).take 1 := by
  have h := limit_zero_no_truncation emptyDataset CteEnv.empty pqLimit0
    [rowPos, rowNeg] 1 rfl (by decide)
  exact ⟨rfl, h.1, h.2.1, h.2.2⟩

/-- C10 counterexample: when an ON clause is present but unparseable,
the employees-departments pair does NOT get its hardcoded
department_id = id default: the code falls straight to ("id", "id").
The hardcoded pairs apply only when the ON clause is absent. -/
theorem join_on_unparseable_not_hardcoded :
    parseJoinOn (some "x = y") "employees" "departments" = ("id", "id")
    ∧ parseJoinOn none "employees" "departments"
        = ("department_id", "id") := by
  decide

/-- C10 (amended): with an absent ON clause the executor uses the
hardcoded pairs (employees-departments: department_id = id,
orders-employees: employee_id = id) and otherwise id = id; with an ON
clause that is present but contains no dotted equality it uses id = id
for every table pair, hardcoded pairs included; and an INNER join then
equi-joins on those columns (each left row combined with every right
row whose join-column value matches). -/
theorem join_default_columns (l r : List Row) (j : JoinD) (lt rt : String)
    (s : String) (hs : s ≠ "") (hno : scanDottedEq s.data = none)
    (hj : j.type = "INNER") :
    (∀ lt' rt' : String, parseJoinOn (some s) lt' rt' = ("id", "id")) ∧
    parseJoinOn none "employees" "departments" = ("department_id", "id") ∧
    parseJoinOn none "orders" "employees" = ("employee_id", "id") ∧
    (¬(lt = "employees" ∧ rt = "departments") →
      ¬(lt = "orders" ∧ rt = "employees") →
      parseJoinOn none lt rt = ("id", "id")) ∧
    applyJoin l r j lt rt =
      l.flatMap (fun lr =>
        (r.filter (fun rr =>
          pyEq (rowGet lr (parseJoinOn j.onClause lt rt).1)
               (rowGet rr (parseJoinOn j.onClause lt rt).2))).map
          (fun rr => joinCombine lt rt lr rr)) := by
  refine ⟨?_, by decide, by decide, ?_, applyJoin_inner l r j lt rt hj⟩
  · intro lt' rt'
    simp [parseJoinOn, hs, hno]
  · intro h1 h2
    simp [parseJoinOn, h1, h2]

/-- Witness for C10: an unparseable ON clause joins on id = id for the
hardcoded employees-departments and orders-employees pairs too; the
INNER join emits exactly the matching combination. -/
theorem join_default_columns_witness :
    scanDottedEq "ON junk".data = none ∧
    parseJoinOn (some "ON junk") "employees" "departments" = ("id", "id") ∧
    parseJoinOn (some "ON junk") "orders" "employees" = ("id", "id") ∧
    applyJoin [[("id", Value.vint 1)]]
        [[("id", Value.vint 1), ("name", Value.vstr "A")]] jInner "a" "b"
      = [[("a.id", Value.vint 1), ("b.id", Value.vint 1),
          ("b.name", Value.vstr "A"), ("id", Value.vint 1),
          ("name", Value.vstr "A")]] := by
  have h := join_default_columns [[("id", Value.vint 1)]]
    [[("id", Value.vint 1), ("name", Value.vstr "A")]] jInner "a" "b"
    "ON junk" (by decide) (by decide) rfl
  refine ⟨by decide, h.1 "employees" "departments", h.1 "orders" "employees", ?_⟩
  rw [h.2.2.2.2]
  decide

end SqlLearn
